import Mathlib

/-!
mod_cv: detection hysteresis, event state machine, cadence and overlay registry.

A shallow embedding of `src/mod/applications/mod_cv/mod_cv.cpp`.

* `uint32_t` / `uint64_t` fields and parameters are natural numbers, with the
  wrap-around of every C arithmetic operation written out (`u32`, `u64`).
* `int` fields are integers.
* The `float` field `avg` only ever holds the value of an unsigned integer
  division converted to binary32, so it is represented by the (integer) value of
  that float; `float_round` is IEEE-754 round-to-nearest-even to 24 significant
  bits.
* Pixels, locks and the event bus are outside the embedding: the detector
  results of a frame are an input, and the notifications and named callbacks a
  frame triggers are an output list.
-/

namespace ModCv

/-! ## Machine arithmetic -/

/-- Truncation of a value to `uint32_t`. -/
def u32 (n : Nat) : Nat := n % 2 ^ 32

/-- Conversion of an `int` to `uint64_t` (two's complement). -/
def u64 (i : Int) : Nat := (i % 2 ^ 64).toNat

/-- Value of the binary32 float nearest to the natural number `n`
(round to nearest, ties to even).  Numbers below `2 ^ 24` are exact. -/
def float_round (n : Nat) : Nat :=
  if n < 2 ^ 24 then n
  else
    let e := Nat.log2 n - 23
    let q := n / 2 ^ e
    let r := n % 2 ^ e
    let half := 2 ^ (e - 1)
    if r < half then q * 2 ^ e
    else if half < r then (q + 1) * 2 ^ e
    else if q % 2 = 0 then q * 2 ^ e
    else (q + 1) * 2 ^ e

/-! ## Data model (lines 59-118) -/

/-- The `struct detect_stats`.  `avg` is the value of the `float` field. -/
structure detect_stats where
  last_score : Nat
  simo_count : Nat
  simo_miss_count : Nat
  above_avg_simo_count : Nat
  sum : Nat
  itr : Nat
  avg : Nat
  deriving DecidableEq, Repr

/-- The `struct shape`. -/
structure shape where
  x : Int
  y : Int
  x2 : Int
  y2 : Int
  w : Int
  h : Int
  cx : Int
  cy : Int
  radius : Int
  deriving DecidableEq, Repr

def MAX_SHAPES : Nat := 32

def MAX_OVERLAY : Nat := 32

/-- The part of a decoded `switch_image_t` that the module reads: its size. -/
structure image where
  d_w : Int
  d_h : Int
  deriving DecidableEq, Repr

/-- The `struct overlay`.  A `NULL` pointer is `none`; the three `float`
fields hold the rational value of the float. -/
structure overlay where
  png_path : Option String
  nick : Option String
  png : Option image
  x_off : Rat
  y_off : Rat
  shape_scale : Rat
  deriving DecidableEq, Repr

/-- An all-zero `struct detect_stats` (what `memset` leaves). -/
def zero_stats : detect_stats := ⟨0, 0, 0, 0, 0, 0, 0⟩

/-- An all-zero `struct shape`. -/
def zero_shape : shape := ⟨0, 0, 0, 0, 0, 0, 0, 0, 0⟩

/-- An all-zero `struct overlay`. -/
def zero_overlay : overlay := ⟨none, none, none, 0, 0, 0⟩

/-- The fields of `cv_context_t` that the analytics read or write.
`cascade` / `nestedCascade` say whether the pointer is non-NULL, and
`nestedEmpty` is the value of `nestedCascade->empty()`.  The arrays `shape`
and `overlay` are lists (of length `MAX_SHAPES` and `MAX_OVERLAY` in every
well-formed context). -/
structure cv_context where
  cascade : Bool
  nestedCascade : Bool
  nestedEmpty : Bool
  detected : detect_stats
  nestDetected : detect_stats
  detect_event : Int
  nest_detect_event : Int
  shape : List shape
  shape_idx : Nat
  skip : Int
  skip_count : Int
  debug : Nat
  overlay : List overlay
  overlay_count : Nat
  png_prefix : Option String
  deriving DecidableEq, Repr

/-- What the host supplies to the module: the PNG loader
`switch_img_read_png`, the constant `SWITCH_PATH_SEPARATOR`, and the helper
`switch_round_to_step` of `switch_utils.h`. -/
structure Host where
  read_png : String → Option image
  path_separator : String
  round_to_step : Int → Int → Int

/-! ## Statistics tracker (lines 188-191 and 262-291) -/

/-- Lines 188-191: `memset(stats, 0, sizeof(*stats))`. -/
def reset_stats (_stats : detect_stats) : detect_stats := zero_stats

/-- Lines 262-291.  `size` is the `uint32_t` parameter and `skip` the
`uint64_t` one.  The comparison `last_score > avg + 10` is a float comparison:
`last_score` is converted to float and the sum is rounded to float. -/
def parse_stats (stats : detect_stats) (size : Nat) (skip : Nat) : detect_stats :=
  let s1 := if 500 ≤ stats.itr then reset_stats stats else stats
  let s2 :=
    if 60 ≤ s1.itr then
      if float_round (s1.avg + 10) < float_round s1.last_score then
        { s1 with above_avg_simo_count := u32 (s1.above_avg_simo_count + skip) }
      else if s1.above_avg_simo_count ≠ 0 then
        { s1 with above_avg_simo_count := 0 }
      else s1
    else s1
  let s3 :=
    if size ≠ 0 then
      { s2 with
        simo_miss_count := 0
        simo_count := u32 (s2.simo_count + skip)
        last_score := size
        sum := u32 (s2.sum + size) }
    else
      { s2 with
        simo_miss_count := u32 (s2.simo_miss_count + skip)
        simo_count := 0
        itr := 0
        avg := 0 }
  let s4 := { s3 with itr := u32 (s3.itr + 1) }
  { s4 with avg := float_round (s4.sum / s4.itr) }

/-! ## Detection pipeline (lines 293-434) -/

/-- A `cv::Rect` returned by a detector. -/
structure Rect where
  x : Int
  y : Int
  width : Int
  height : Int
  deriving DecidableEq, Repr

/-- What one call of `video_thread_callback` receives from outside:
whether the channel is ready, whether the frame carries an image, the image
width, and what the detectors answer on this image: the boxes of the primary
detector in order, each with the number of objects the nested detector
finds in its sub-region. -/
structure frame_input where
  ready : Bool
  has_img : Bool
  width : Int
  objs : List (Rect × Nat)
  deriving DecidableEq, Repr

/-- OpenCV `cvRound` applied to the real number `num / den` with `0 < den`:
the nearest integer, a tie going to the even one. -/
def cvRound (num den : Int) : Int :=
  let q := num / den
  let r := num % den
  if 2 * r < den then q
  else if den < 2 * r then q + 1
  else if q % 2 = 0 then q
  else q + 1

/-- Twice the resize scale chosen at lines 308-312 (scale 2, 1.5 or 1). -/
def scale2 (width : Int) : Int :=
  if 1080 ≤ width then 4 else if 720 ≤ width then 3 else 2

/-- Line 364: `0.75 < (double) width / height && (double) width / height < 1.3`.
For 32-bit operands the rounding of the quotient and of the literal `1.3`
never changes the outcome, so the test is the exact comparison of fractions;
a zero height gives an infinity or a NaN, which fails the test. -/
def is_circular (r : Rect) : Bool :=
  (0 < r.height && 3 * r.height < 4 * r.width && 10 * r.width < 13 * r.height)
  || (r.height < 0 && 4 * r.width < 3 * r.height && 13 * r.height < 10 * r.width)

/-- Lines 365-378: the fields written for a circular box (`x2`, `y2` keep
their old values). -/
def circle_shape (H : Host) (sc : Int) (r : Rect) (old : shape) : shape :=
  let cx := H.round_to_step (cvRound ((2 * r.x + r.width) * sc) 4) 20
  let cy := H.round_to_step (cvRound ((2 * r.y + r.height) * sc) 4) 20
  let radius := H.round_to_step (cvRound ((r.width + r.height) * sc) 8) 20
  { old with
    x := cx - radius
    y := cy - radius
    cx := cx
    cy := cy
    radius := radius
    w := radius * 2
    h := radius * 2 }

/-- Lines 382-389: the fields written for a rectangular box (`radius` keeps
its old value). -/
def rect_shape (H : Host) (sc : Int) (r : Rect) (old : shape) : shape :=
  let x := H.round_to_step (cvRound (r.x * sc) 2) 40
  let y := H.round_to_step (cvRound (r.y * sc) 2) 20
  let x2 := H.round_to_step (cvRound ((r.x + r.width - 1) * sc) 2) 40
  let y2 := H.round_to_step (cvRound ((r.y + r.height - 1) * sc) 2) 20
  let w := x2 - x
  let h := y2 - y
  { old with
    x := x
    y := y
    x2 := x2
    y2 := y2
    w := w
    h := h
    cx := x + Int.tdiv w 2
    cy := y + Int.tdiv h 2 }

/-- Lines 350-431: the loop over the detected boxes. -/
def detect_loop (H : Host) (sc : Int) : List (Rect × Nat) → cv_context → cv_context
  | [], c => c
  | (r, nested) :: rest, c =>
    if MAX_SHAPES ≤ c.shape_idx then c
    else
      let old := c.shape.getD c.shape_idx zero_shape
      let s := if is_circular r then circle_shape H sc r old else rect_shape H sc r old
      let c1 := { c with shape := c.shape.set c.shape_idx s, shape_idx := c.shape_idx + 1 }
      if !c1.nestedCascade || c1.nestedEmpty then detect_loop H sc rest c1
      else
        detect_loop H sc rest
          { c1 with nestDetected := parse_stats c1.nestDetected (u32 nested) (u64 c1.skip) }

/-- Line 301: the frame is skipped by the cadence test. -/
def cadence_skips (c : cv_context) : Bool :=
  (c.shape.getD 0 zero_shape).cx ≠ 0 && 1 < c.skip && c.skip_count < c.skip

/-- Lines 293-434.  In `shape[0].cx && skip > 1 && skip_count++ < skip` the
increment happens only when the first two tests hold. -/
def detectAndDraw (H : Host) (c : cv_context) (f : frame_input) : cv_context :=
  if cadence_skips c then { c with skip_count := c.skip_count + 1 }
  else
    let c1 := { c with
      skip_count := 0
      detected := parse_stats c.detected (u32 f.objs.length) (u64 c.skip) }
    detect_loop H (scale2 f.width) f.objs { c1 with shape_idx := 0 }

/-! ## Event state machine (lines 437-562) -/

inductive detect_type where
  | primary
  | nested
  deriving DecidableEq, Repr

inductive disposition where
  | start
  | stop
  deriving DecidableEq, Repr

/-- What a frame sends to the host: a `cv::video_detect` event with its
`Detect-Type`, `Detect-Disposition`, `Detect-Simo-Count`, `Detect-Average`
and `Detect-Last-Score` headers, or a `switch_channel_execute_on` call. -/
inductive action where
  | notify (t : detect_type) (d : disposition) (simo_count avg last_score : Nat)
  | execute_on (app : String)
  deriving DecidableEq, Repr

/-- Lines 473-518: evaluation of the primary event (the event object is
taken to be created successfully). -/
def primary_events (c : cv_context) : cv_context × List action :=
  if 20 < c.detected.simo_count then
    if c.detect_event = 0 then
      ({ c with detect_event := 1 },
        [action.notify .primary .start c.detected.simo_count c.detected.avg
            c.detected.last_score,
          action.execute_on "execute_on_cv_detect_primary"])
    else (c, [])
  else if 20 ≤ c.detected.simo_miss_count then
    if c.detect_event ≠ 0 then
      ({ c with
          shape := List.replicate MAX_SHAPES zero_shape
          nestDetected := reset_stats c.nestDetected
          detected := reset_stats c.detected
          detect_event := 0 },
        [action.notify .primary .stop c.detected.simo_count c.detected.avg
            c.detected.last_score,
          action.execute_on "execute_on_cv_detect_off_primary"])
    else ({ c with detect_event := 0 }, [])
  else (c, [])

/-- Lines 520-561: evaluation of the nested event.  `last_score > avg`
compares the score converted to float with the float average. -/
def nested_events (c : cv_context) : cv_context × List action :=
  if c.nestedCascade && 20 < c.detected.simo_count then
    if 20 < c.nestDetected.simo_count
        && c.nestDetected.avg < float_round c.nestDetected.last_score
        && 5 < c.nestDetected.above_avg_simo_count then
      if c.nest_detect_event = 0 then
        ({ c with nest_detect_event := 1 },
          [action.notify .nested .start c.nestDetected.simo_count c.nestDetected.avg
              c.nestDetected.last_score,
            action.execute_on "execute_on_cv_detect_nested"])
      else (c, [])
    else if c.nestDetected.above_avg_simo_count = 0 then
      if c.nest_detect_event ≠ 0 then
        ({ c with
            nestDetected := reset_stats c.nestDetected
            nest_detect_event := 0 },
          [action.notify .nested .stop c.nestDetected.simo_count c.nestDetected.avg
              c.nestDetected.last_score,
            action.execute_on "execute_on_cv_detect_off_nested"])
      else ({ c with nest_detect_event := 0 }, [])
    else (c, [])
  else (c, [])

/-- Lines 468-562 after `detectAndDraw`: both event evaluations. -/
def evaluate_events (c : cv_context) : cv_context × List action :=
  ((nested_events (primary_events c).1).1,
    (primary_events c).2 ++ (nested_events (primary_events c).1).2)

/-- Lines 437-562: the effect of one frame on the context, and the
notifications and callbacks it triggers.  (Lines 564-625 write pixels only
and change no field of the context.) -/
def video_thread_callback (H : Host) (c : cv_context) (f : frame_input) :
    cv_context × List action :=
  if !f.ready then (c, [])
  else if !f.has_img then (c, [])
  else if c.cascade then evaluate_events (detectAndDraw H c f)
  else (c, [])

/-- The context after a sequence of frames. -/
def run_frames (H : Host) (c : cv_context) (fs : List frame_input) : cv_context :=
  fs.foldl (fun s f => (video_thread_callback H s f).1) c

/-- Everything sent to the host over a sequence of frames, in order. -/
def run_actions (H : Host) : cv_context → List frame_input → List action
  | _, [] => []
  | c, f :: fs =>
    (video_thread_callback H c f).2 ++ run_actions H (video_thread_callback H c f).1 fs

/-- The dispositions of the primary notifications in a list of actions. -/
def primary_notifications (as : List action) : List disposition :=
  as.filterMap fun a =>
    match a with
    | action.notify .primary d _ _ _ => some d
    | _ => none

/-- A context as `cv_bug_start_function` leaves it before the first frame:
zeroed by the allocator, then configured by `parse_params`, which touches
neither the trackers, the event flags, the shapes nor the skip counter. -/
def initial_context (c : cv_context) : Prop :=
  c.detected = zero_stats ∧ c.nestDetected = zero_stats ∧ c.detect_event = 0 ∧
    c.nest_detect_event = 0 ∧ c.shape = List.replicate MAX_SHAPES zero_shape ∧
    c.shape_idx = 0 ∧ c.skip_count = 0

/-- A frame on which the pipeline is entered: the channel is ready and the
frame has an image. -/
def frame_input.live (f : frame_input) : Prop := f.ready = true ∧ f.has_img = true

/-! ## Overlay registry (lines 121-180) -/

/-- The `zstr` test of `switch_utils.h`: a NULL or empty string. -/
def zstr (s : Option String) : Bool :=
  match s with
  | none => true
  | some t => t = ""

/-- The truth value of `strstr (haystack, needle)`: `needle` occurs in `haystack`. -/
def strstr (haystack needle : String) : Bool :=
  decide (needle.toList <:+: haystack.toList)

/-- Lines 148-157: the entry is in use and has the key looked for. -/
def overlay_match (o : overlay) (png_path : String) (nick : Option String) : Bool :=
  match o.png_path with
  | none => false
  | some p =>
    if !zstr nick then !zstr o.nick && o.nick = nick
    else strstr p png_path

/-- Lines 141-180.  The result is `none` when the function reads or writes
`overlay[x]` with `x` outside the array, which C leaves undefined; otherwise
it is the new context and the returned `int`. -/
def add_overlay (H : Host) (c : cv_context) (png_path : String) (nick : Option String) :
    Option (cv_context × Int) :=
  let i := c.overlay_count
  match (List.range (min i MAX_OVERLAY)).find?
      (fun x => overlay_match (c.overlay.getD x zero_overlay) png_path nick) with
  | some x => some (c, (x : Int))
  | none =>
    if MAX_OVERLAY ≤ i then none
    else
      let path :=
        match c.png_prefix with
        | some p => p ++ H.path_separator ++ png_path
        | none => png_path
      let o := c.overlay.getD i zero_overlay
      match H.read_png path with
      | some png =>
        let o1 := { o with png_path := some path, png := some png }
        let o2 := if !zstr nick then { o1 with nick := nick } else o1
        let o3 := if o2.shape_scale = 0 then { o2 with shape_scale := 1 } else o2
        some ({ c with overlay := c.overlay.set i o3, overlay_count := u32 (i + 1) }, (i : Int))
      | none =>
        some ({ c with overlay := c.overlay.set i { o with png_path := none } }, -1)

/-- Lines 133-136: one turn of the shift-down loop. -/
def shift_down (ov : List overlay) (x : Nat) : List overlay :=
  (ov.set (x - 1) (ov.getD x zero_overlay)).set x zero_overlay

/-- Lines 121-139.  The result is `none` when the index or the loop leaves
the array (undefined in C); otherwise it is the new context and the returned
`int`.  The counter is a `uint32_t` and wraps. -/
def clear_overlay (c : cv_context) (idx : Int) : Option (cv_context × Int) :=
  let i := c.overlay_count
  if idx < 0 ∨ (MAX_OVERLAY : Int) ≤ idx ∨ MAX_OVERLAY < i then none
  else
    let ov0 := c.overlay.set idx.toNat zero_overlay
    let ov := (List.range' (idx.toNat + 1) (i - (idx.toNat + 1))).foldl shift_down ov0
    some ({ c with overlay := ov, overlay_count := u32 (c.overlay_count + 2 ^ 32 - 1) },
      if idx - 1 > 0 then idx - 1 else 0)


/-- The dispositions alternate, the first one being `stop` when `active` is
true and `start` when it is false. -/
def alternating : Bool → List disposition → Bool
  | _, [] => true
  | false, disposition.start :: ds => alternating true ds
  | true, disposition.stop :: ds => alternating false ds
  | false, disposition.stop :: _ => false
  | true, disposition.start :: _ => false

/-- The tracker after a sequence of updates, each a pair `(size, skip)`. -/
def run_stats (s : detect_stats) (us : List (Nat × Nat)) : detect_stats :=
  us.foldl (fun t u => parse_stats t u.1 u.2) s

/-- Evaluating the events on this context changes nothing and sends nothing. -/
def settled (c : cv_context) : Prop := evaluate_events c = (c, [])

/-! ## Sample inputs -/

/-- A host whose loader reads every path as a 64x64 image and whose
`round_to_step` goes to a neighbouring multiple of the step, upwards when
the remainder exceeds half a step. -/
def sample_host : Host where
  read_png := fun _ => some ⟨64, 64⟩
  path_separator := "/"
  round_to_step := fun num step =>
    if num = 0 then 0
    else if Int.tdiv step 2 < Int.tmod num step then num - Int.tmod num step + step
    else num - Int.tmod num step

/-- A freshly allocated context with a primary detector and the given
`skip`. -/
def sample_context (skip : Int) : cv_context where
  cascade := true
  nestedCascade := false
  nestedEmpty := false
  detected := zero_stats
  nestDetected := zero_stats
  detect_event := 0
  nest_detect_event := 0
  shape := List.replicate MAX_SHAPES zero_shape
  shape_idx := 0
  skip := skip
  skip_count := 0
  debug := 0
  overlay := List.replicate MAX_OVERLAY zero_overlay
  overlay_count := 0
  png_prefix := none

/-- A 640 pixel wide frame on which the primary detector finds `n` times the
box `50x50` at `(100, 100)`. -/
def sample_frame (n : Nat) : frame_input where
  ready := true
  has_img := true
  width := 640
  objs := List.replicate n (⟨100, 100, 50, 50⟩, 0)

/-- The sample context after `png=face.png` with nickname `a`. -/
def sample_registry : cv_context :=
  { sample_context 1 with
    overlay := (List.replicate MAX_OVERLAY zero_overlay).set 0
      ⟨some "face.png", some "a", some ⟨64, 64⟩, 0, 0, 1⟩
    overlay_count := 1 }

/-! ## Further definitions for the overlay registry -/

/-- Lines 161-165: the path stored in a new entry. -/
def overlay_path (H : Host) (c : cv_context) (png_path : String) : String :=
  match c.png_prefix with
  | some p => p ++ H.path_separator ++ png_path
  | none => png_path

/-- A sample host whose loader fails on every path. -/
def sample_host_no_png : Host :=
  { sample_host with read_png := fun _ => none }

/-- The nickname of the `k`-th entry of the sample full registry: `k + 1`
letters `n`. -/
def sample_nick (k : Nat) : String := String.mk (List.replicate (k + 1) 'n')

/-- The sample context after `nick=n png=face.png nick=nn png=face.png ...`,
32 times. -/
def sample_full_registry : cv_context :=
  { sample_context 1 with
    overlay := (List.range 32).map fun k =>
      ⟨some "face.png", some (sample_nick k), some ⟨64, 64⟩, 0, 0, 1⟩
    overlay_count := 32 }

/-- Adding the entries of the list one after the other; `none` as soon as
one `add_overlay` leaves the array. -/
def add_overlays (H : Host) : cv_context → List (String × Option String) → Option cv_context
  | c, [] => some c
  | c, (p, n) :: rest =>
    match add_overlay H c p n with
    | some (c1, _) => add_overlays H c1 rest
    | none => none

/-- The sample context after `nick=a png=face.png nick=b png=hat.png`. -/
def sample_pair_registry : cv_context :=
  { sample_context 1 with
    overlay := ((List.replicate MAX_OVERLAY zero_overlay).set 0
      ⟨some "face.png", some "a", some ⟨64, 64⟩, 0, 0, 1⟩).set 1
      ⟨some "hat.png", some "b", some ⟨64, 64⟩, 0, 0, 1⟩
    overlay_count := 2 }

/-- The registry `sample_pair_registry` after `clear` of entry 0 and
`nick=c png=nose.png`. -/
def sample_pair_cleared_added : cv_context :=
  { sample_context 1 with
    overlay := ((List.replicate MAX_OVERLAY zero_overlay).set 0
      ⟨some "hat.png", some "b", some ⟨64, 64⟩, 0, 0, 1⟩).set 1
      ⟨some "nose.png", some "c", some ⟨64, 64⟩, 0, 0, 1⟩
    overlay_count := 2 }

/-- The sample context after `nick=a png=face.png nick=b png=hat.png nick=c
png=nose.png`. -/
def sample_triple_registry : cv_context :=
  { sample_context 1 with
    overlay := (((List.replicate MAX_OVERLAY zero_overlay).set 0
      ⟨some "face.png", some "a", some ⟨64, 64⟩, 0, 0, 1⟩).set 1
      ⟨some "hat.png", some "b", some ⟨64, 64⟩, 0, 0, 1⟩).set 2
      ⟨some "nose.png", some "c", some ⟨64, 64⟩, 0, 0, 1⟩
    overlay_count := 3 }

/-! ## Further definitions for the pipeline and the events -/

/-- Lines 364-398: the shape entry written for a box, from the old entry. -/
def box_shape (H : Host) (sc : Int) (r : Rect) (old : shape) : shape :=
  if is_circular r then circle_shape H sc r old else rect_shape H sc r old

/-- Lines 404-408: the rectangle handed to the nested detector.
`(float) height / 2` is exact, and `cvRound` turns it into an `int`. -/
def nested_region (r : Rect) : Rect :=
  let half_height := cvRound r.height 2
  { r with y := r.y + half_height, height := half_height }

/-- The dispositions of the nested notifications in a list of actions. -/
def nested_notifications (as : List action) : List disposition :=
  as.filterMap fun a =>
    match a with
    | action.notify .nested d _ _ _ => some d
    | _ => none

/-- The sample context with a nested detector. -/
def sample_nested_context : cv_context :=
  { sample_context 1 with nestedCascade := true }

/-- A 640 pixel wide frame with `n` boxes, in each of which the nested
detector finds `k` objects. -/
def sample_nested_frame (n k : Nat) : frame_input where
  ready := true
  has_img := true
  width := 640
  objs := List.replicate n (⟨100, 100, 50, 50⟩, k)

/-- A run of 23 frames: 20 frames of 3 boxes with nested count 1, a frame of
4 and a frame of 3 boxes with nested count 20, which start the primary and
then the nested event, and a frame without any box. -/
def sample_nested_run : List frame_input :=
  List.replicate 20 (sample_nested_frame 3 1) ++
    [sample_nested_frame 4 20, sample_nested_frame 3 20, sample_nested_frame 0 0]

/-! ## The aspect-ratio test in binary64 arithmetic (line 357 and line 364) -/

/-- Rounding of the positive fraction `N / D` to 53 significant bits (round
to nearest, ties to even), for `2 ^ 52 <= N / D`: the exponent `s` is the one
with `2 ^ (52 + s) <= N / D < 2 ^ (53 + s)`, and the result is the nearest
multiple of `2 ^ s`. -/
def round53 (N D : Nat) : Nat :=
  let s := Nat.log2 (N / D) - 52
  let q := N / (D * 2 ^ s)
  let r := N % (D * 2 ^ s)
  let m :=
    if 2 * r < D * 2 ^ s then q
    else if D * 2 ^ s < 2 * r then q + 1
    else if q % 2 = 0 then q
    else q + 1
  m * 2 ^ s

/-- The binary64 number nearest to `n / d`, as a multiple of `2 ^ (-84)`:
the value of the double division `(double) n / d`, and of a decimal literal
equal to `n / d`, for `0 < n, d < 2 ^ 31`.  In this range every double is a
multiple of `2 ^ (-83)` and `n * 2 ^ 84 / d` exceeds `2 ^ 53`. -/
def double_div (n d : Nat) : Nat := round53 (n * 2 ^ 84) d

/-- Line 364 in binary64 arithmetic: `0.75 < aspect_ratio && aspect_ratio < 1.3`
with `aspect_ratio = (double) width / height` of line 357.  A zero height
gives an infinity or a NaN, and a quotient that is not positive is below
`0.75`; both fail the test.  Otherwise the quotient is that of the absolute
values. -/
def is_circular_double (r : Rect) : Bool :=
  decide (r.height ≠ 0) && decide (0 < r.width * r.height)
    && decide (double_div 3 4 < double_div r.width.natAbs r.height.natAbs)
    && decide (double_div r.width.natAbs r.height.natAbs < double_div 13 10)

/-! ## Overlay compositor (lines 564-625) -/

/-- The binary32 number nearest to a rational (round to nearest, ties to
even; the exponent range is taken to be unbounded).  An integer below
`2 ^ 24` in absolute value is a binary32 number. -/
def f32_round (q : Rat) : Rat :=
  if q.den = 1 ∧ q.num.natAbs < 2 ^ 24 then q
  else
    let a := |q|
    let ulp : Rat := 2 ^ (Int.log 2 a - 23)
    let y := a / ulp
    let f := ⌊y⌋
    let m :=
      if y - f < 1 / 2 then f
      else if 1 / 2 < y - f then f + 1
      else if f % 2 = 0 then f
      else f + 1
    (if q < 0 then -1 else 1) * m * ulp

/-- Conversion of an `int` to `unsigned int`. -/
def to_unsigned (i : Int) : Int := i % 2 ^ 32

/-- What the C library and the classifier loader supply to `parse_params`:
the number read by `atof`, the number read by `atoi`, and whether the
classifier loaded from a path is empty. -/
structure Library where
  atof : String → Rat
  atoi : String → Int
  cascade_empty : String → Bool

/-- The state that `parse_params` works on: the context, its two path fields
(which the frame pipeline never reads), and the locals `changed`, `png_idx`
and `nick`. -/
structure params_state where
  context : cv_context
  cascade_path : Option String
  nested_cascade_path : Option String
  changed : Int
  png_idx : Int
  nick : Option String

/-- Lines 640-645: the argument is cut at its first `=`; without one `val`
is NULL. -/
def split_arg (arg : String) : String × Option String :=
  match arg.toList.span (fun ch => ch ≠ '=') with
  | (name, []) => (String.mk name, none)
  | (name, _ :: val) => (String.mk name, some (String.mk val))

/-- The truth value of `strcasecmp (a, b)`: the strings differ after ASCII
case folding. -/
def strcasecmp (a b : String) : Bool :=
  a.toList.map Char.toLower != b.toList.map Char.toLower

/-- An assignment to a field of `overlay[idx]`; `none` when `idx` is outside
the array. -/
def set_overlay (c : cv_context) (idx : Int) (g : overlay → overlay) : Option cv_context :=
  if idx < 0 ∨ (MAX_OVERLAY : Int) ≤ idx then none
  else
    some { c with
      overlay := c.overlay.set idx.toNat (g (c.overlay.getD idx.toNat zero_overlay)) }

/-- Lines 640-677: one turn of the loop over the arguments.  The result is
`none` when the turn accesses the overlay array outside its bounds. -/
def parse_arg (L : Library) (H : Host) (st : params_state) (arg : String) :
    Option params_state :=
  match split_arg arg with
  | (name, some val) =>
    if !strcasecmp name "x_off" then
      (set_overlay st.context st.png_idx
        fun o => { o with x_off := f32_round (L.atof val) }).map
        fun c => { st with context := c }
    else if !strcasecmp name "nick" then some { st with nick := some val }
    else if !strcasecmp name "y_off" then
      (set_overlay st.context st.png_idx
        fun o => { o with y_off := f32_round (L.atof val) }).map
        fun c => { st with context := c }
    else if !strcasecmp name "scale" then
      (set_overlay st.context st.png_idx
        fun o => { o with shape_scale := f32_round (L.atof val) }).map
        fun c => { st with context := c }
    else if !strcasecmp name "skip" then
      some { st with context := { st.context with skip := L.atoi val } }
    else if !strcasecmp name "debug" then
      some { st with context := { st.context with debug := (to_unsigned (L.atoi val)).toNat } }
    else if !strcasecmp name "cascade" then
      some { st with cascade_path := some val, changed := st.changed + 1 }
    else if !strcasecmp name "nested_cascade" then
      some { st with nested_cascade_path := some val, changed := st.changed + 1 }
    else if !strcasecmp name "png" then
      (add_overlay H st.context val st.nick).map
        fun r => { st with context := r.1, png_idx := r.2 }
    else some st
  | (name, none) =>
    if !strcasecmp name "clear" then
      (clear_overlay st.context st.png_idx).map
        fun r => { st with context := r.1, png_idx := r.2 }
    else some st

/-- Lines 230-258 on a context that already has its pool, as it has at every
call from `parse_params`: the classifiers are dropped and loaded again from
the paths. -/
def init_context (L : Library) (st : params_state) : params_state :=
  match st.cascade_path with
  | none => { st with context := { st.context with cascade := false, nestedCascade := false } }
  | some _ =>
    match st.nested_cascade_path with
    | none => { st with context := { st.context with cascade := true, nestedCascade := false } }
    | some p =>
      { st with
        context := { st.context with
          cascade := true
          nestedCascade := true
          nestedEmpty := L.cascade_empty p } }

/-- Lines 680-690: the end of `parse_params`, with `png_count` the overlay
count read at line 637. -/
def finish_params (L : Library) (png_count : Nat) (st : params_state) : params_state :=
  let changed := if st.context.overlay_count ≠ png_count then st.changed + 1 else st.changed
  let c := if st.context.skip = 0 then { st.context with skip := 1 } else st.context
  let st1 := { st with context := c, changed := changed }
  if changed ≠ 0 then init_context L st1 else st1

/-- Lines 632-691, on the context `c` with its two path fields and the
arguments `argv[0 .. argc - 1]`. -/
def parse_params (L : Library) (H : Host) (c : cv_context)
    (cascade_path nested_cascade_path : Option String) (start : Nat) (argv : List String) :
    Option params_state :=
  ((argv.drop start).foldlM (parse_arg L H)
    ⟨c, cascade_path, nested_cascade_path, 0, 0, none⟩).map (finish_params L c.overlay_count)

/-- A library whose `atof` and `atoi` read every string as 0 and whose
classifiers load as non-empty. -/
def sample_library : Library where
  atof := fun _ => 0
  atoi := fun _ => 0
  cascade_empty := fun _ => false

/-- The sample context while it tracks a face of 50x50 at `(100, 100)` in
entry 0, the primary event being active. -/
def sample_tracking_context : cv_context :=
  { sample_context 1 with
    shape := (List.replicate MAX_SHAPES zero_shape).set 0
      ⟨100, 100, 150, 150, 50, 50, 125, 125, 0⟩
    shape_idx := 1
    detect_event := 1
    detected := ⟨1, 30, 0, 0, 30, 30, 1⟩ }

/-! ## Lemmas on the tracker and the frame step -/

theorem u32_of_lt {n : Nat} (h : n < 2 ^ 32) : u32 n = n := Nat.mod_eq_of_lt h

theorem parse_stats_itr (s : detect_stats) (size skip : Nat) :
    (parse_stats s size skip).itr =
      if size ≠ 0 then (if 500 ≤ s.itr then 1 else s.itr + 1) else 1 := by
  unfold parse_stats reset_stats zero_stats u32
  by_cases h5 : 500 ≤ s.itr <;> by_cases hz : size = 0 <;> simp [h5, hz]
  all_goals split_ifs <;> simp <;> omega

theorem parse_stats_simo_count (s : detect_stats) (size skip : Nat) :
    (parse_stats s size skip).simo_count =
      if size ≠ 0 then u32 ((if 500 ≤ s.itr then 0 else s.simo_count) + skip) else 0 := by
  unfold parse_stats reset_stats zero_stats
  by_cases h5 : 500 ≤ s.itr <;> by_cases hz : size = 0 <;> simp [h5, hz]
  all_goals split_ifs <;> simp

theorem parse_stats_simo_miss_count (s : detect_stats) (size skip : Nat) :
    (parse_stats s size skip).simo_miss_count =
      if size ≠ 0 then 0 else u32 ((if 500 ≤ s.itr then 0 else s.simo_miss_count) + skip) := by
  unfold parse_stats reset_stats zero_stats
  by_cases h5 : 500 ≤ s.itr <;> by_cases hz : size = 0 <;> simp [h5, hz]
  all_goals split_ifs <;> simp

theorem parse_stats_sum (s : detect_stats) (size skip : Nat) :
    (parse_stats s size skip).sum =
      if size ≠ 0 then u32 ((if 500 ≤ s.itr then 0 else s.sum) + size)
      else (if 500 ≤ s.itr then 0 else s.sum) := by
  unfold parse_stats reset_stats zero_stats
  by_cases h5 : 500 ≤ s.itr <;> by_cases hz : size = 0 <;> simp [h5, hz]
  all_goals split_ifs <;> simp

theorem parse_stats_avg (s : detect_stats) (size skip : Nat) :
    (parse_stats s size skip).avg =
      float_round ((parse_stats s size skip).sum / (parse_stats s size skip).itr) := by
  unfold parse_stats
  simp


theorem detect_loop_frame (H : Host) (sc : Int) (objs : List (Rect × Nat)) :
    ∀ c : cv_context,
      (detect_loop H sc objs c).cascade = c.cascade ∧
      (detect_loop H sc objs c).nestedCascade = c.nestedCascade ∧
      (detect_loop H sc objs c).nestedEmpty = c.nestedEmpty ∧
      (detect_loop H sc objs c).detected = c.detected ∧
      (detect_loop H sc objs c).detect_event = c.detect_event ∧
      (detect_loop H sc objs c).nest_detect_event = c.nest_detect_event ∧
      (detect_loop H sc objs c).skip = c.skip ∧
      (detect_loop H sc objs c).skip_count = c.skip_count ∧
      (detect_loop H sc objs c).debug = c.debug ∧
      (detect_loop H sc objs c).overlay = c.overlay ∧
      (detect_loop H sc objs c).overlay_count = c.overlay_count := by
  induction objs with
  | nil => intro c; simp [detect_loop]
  | cons o rest ih =>
    intro c
    obtain ⟨r, nested⟩ := o
    by_cases h1 : MAX_SHAPES ≤ c.shape_idx
    · simp [detect_loop, h1]
    · by_cases h2 : (!c.nestedCascade || c.nestedEmpty) = true
      · rw [detect_loop, if_neg h1]
        simp only [h2, if_true]
        exact ih _
      · rw [detect_loop, if_neg h1]
        simp only [h2]
        exact ih _

/-- The tracker part of a processed frame. -/
theorem detectAndDraw_detected (H : Host) (c : cv_context) (f : frame_input)
    (h : cadence_skips c = false) :
    (detectAndDraw H c f).detected = parse_stats c.detected (u32 f.objs.length) (u64 c.skip) := by
  simp [detectAndDraw, h, (detect_loop_frame H _ f.objs _).2.2.2.1]

theorem detectAndDraw_frame (H : Host) (c : cv_context) (f : frame_input) :
    (detectAndDraw H c f).cascade = c.cascade ∧
    (detectAndDraw H c f).nestedCascade = c.nestedCascade ∧
    (detectAndDraw H c f).nestedEmpty = c.nestedEmpty ∧
    (detectAndDraw H c f).detect_event = c.detect_event ∧
    (detectAndDraw H c f).nest_detect_event = c.nest_detect_event ∧
    (detectAndDraw H c f).skip = c.skip ∧
    (detectAndDraw H c f).debug = c.debug ∧
    (detectAndDraw H c f).overlay = c.overlay ∧
    (detectAndDraw H c f).overlay_count = c.overlay_count := by
  unfold detectAndDraw
  split_ifs
  · simp
  · have h := detect_loop_frame H (scale2 f.width) f.objs
      { c with skip_count := 0, detected := parse_stats c.detected (u32 f.objs.length) (u64 c.skip),
               shape_idx := 0 }
    simpa using ⟨h.1, h.2.1, h.2.2.1, h.2.2.2.2.1, h.2.2.2.2.2.1, h.2.2.2.2.2.2.1,
      h.2.2.2.2.2.2.2.2.1, h.2.2.2.2.2.2.2.2.2.1, h.2.2.2.2.2.2.2.2.2.2⟩

theorem nested_events_frame (c : cv_context) :
    (nested_events c).1.cascade = c.cascade ∧
    (nested_events c).1.detected = c.detected ∧
    (nested_events c).1.detect_event = c.detect_event ∧
    (nested_events c).1.skip = c.skip ∧
    (nested_events c).1.skip_count = c.skip_count ∧
    (nested_events c).1.shape = c.shape ∧
    (nested_events c).1.shape_idx = c.shape_idx ∧
    (nested_events c).1.nestedCascade = c.nestedCascade ∧
    (nested_events c).1.nestedEmpty = c.nestedEmpty ∧
    primary_notifications (nested_events c).2 = [] := by
  unfold nested_events
  split_ifs <;> simp [primary_notifications]

theorem primary_events_frame (c : cv_context) :
    (primary_events c).1.cascade = c.cascade ∧
    (primary_events c).1.skip = c.skip ∧
    (primary_events c).1.skip_count = c.skip_count ∧
    (primary_events c).1.shape_idx = c.shape_idx ∧
    (primary_events c).1.nestedCascade = c.nestedCascade ∧
    (primary_events c).1.nestedEmpty = c.nestedEmpty ∧
    (primary_events c).1.nest_detect_event = c.nest_detect_event := by
  unfold primary_events
  split_ifs <;> simp


theorem primary_notifications_append (as bs : List action) :
    primary_notifications (as ++ bs) = primary_notifications as ++ primary_notifications bs := by
  simp [primary_notifications]

theorem u64_one : u64 1 = 1 := by decide

theorem cadence_skips_of_skip_one (c : cv_context) (hs : c.skip = 1) :
    cadence_skips c = false := by
  simp [cadence_skips, hs]

theorem video_thread_callback_live (H : Host) (c : cv_context) (f : frame_input)
    (hc : c.cascade = true) (hl : f.live) :
    video_thread_callback H c f = evaluate_events (detectAndDraw H c f) := by
  simp [video_thread_callback, hl.1, hl.2, hc]

theorem run_frames_cons (H : Host) (c : cv_context) (f : frame_input) (fs : List frame_input) :
    run_frames H c (f :: fs) = run_frames H (video_thread_callback H c f).1 fs := rfl

theorem run_frames_append (H : Host) (c : cv_context) (fs gs : List frame_input) :
    run_frames H c (fs ++ gs) = run_frames H (run_frames H c fs) gs := by
  simp [run_frames, List.foldl_append]

theorem run_actions_append (H : Host) (fs gs : List frame_input) :
    ∀ c : cv_context,
      run_actions H c (fs ++ gs) = run_actions H c fs ++ run_actions H (run_frames H c fs) gs := by
  induction fs with
  | nil => intro c; simp [run_actions, run_frames]
  | cons f fs ih => intro c; simp [run_actions, run_frames_cons, ih]

theorem streak_step (H : Host) (c : cv_context) (f : frame_input) (k : Nat)
    (hc : c.cascade = true) (hs : c.skip = 1) (hl : f.live) (hpos : 0 < u32 f.objs.length)
    (hitr : c.detected.itr = k) (hsc : c.detected.simo_count = k) (hk : k ≤ 20)
    (he : c.detect_event = 0) :
    (video_thread_callback H c f).1.cascade = true ∧
    (video_thread_callback H c f).1.skip = 1 ∧
    (video_thread_callback H c f).1.detected.itr = k + 1 ∧
    (video_thread_callback H c f).1.detected.simo_count = k + 1 ∧
    (video_thread_callback H c f).1.detect_event = (if k = 20 then 1 else 0) ∧
    primary_notifications (video_thread_callback H c f).2 =
      (if k = 20 then [disposition.start] else []) := by
  have hd := detectAndDraw_detected H c f (cadence_skips_of_skip_one c hs)
  have hf := detectAndDraw_frame H c f
  rw [hs, u64_one] at hd
  have h1 : (detectAndDraw H c f).detected.itr = k + 1 := by
    rw [hd, parse_stats_itr, hitr]; simp [Nat.pos_iff_ne_zero.mp hpos]; omega
  have h2 : (detectAndDraw H c f).detected.simo_count = k + 1 := by
    rw [hd, parse_stats_simo_count, hitr, hsc]
    simp [Nat.pos_iff_ne_zero.mp hpos]
    rw [if_neg (by omega)]
    exact u32_of_lt (by omega)
  have h3 : (detectAndDraw H c f).detect_event = 0 := by rw [hf.2.2.2.1, he]
  have h4 : (detectAndDraw H c f).cascade = true := by rw [hf.1, hc]
  have h5 : (detectAndDraw H c f).skip = 1 := by rw [hf.2.2.2.2.2.1, hs]
  rw [video_thread_callback_live H c f hc hl]
  generalize detectAndDraw H c f = d at h1 h2 h3 h4 h5
  have hn := nested_events_frame (primary_events d).1
  have hp := primary_events_frame d
  simp only [evaluate_events, primary_notifications_append, hn.1, hn.2.1, hn.2.2.1, hn.2.2.2.1,
    hn.2.2.2.2.2.2.2.2.2, hp.1, hp.2.1, h4, h5, List.append_nil, true_and]
  unfold primary_events
  by_cases hk20 : k = 20
  · subst hk20
    simp [h1, h2, h3, primary_notifications]
  · have : ¬ 20 < d.detected.simo_count := by omega
    simp only [this, if_false, h3, hk20]
    split_ifs <;> first | contradiction | simp [h1, h2, h3, primary_notifications]


theorem streak_run (H : Host) :
    ∀ (fs : List frame_input) (c : cv_context) (k : Nat),
      c.cascade = true → c.skip = 1 → c.detected.itr = k → c.detected.simo_count = k →
      c.detect_event = 0 → k + fs.length ≤ 21 →
      (∀ f ∈ fs, f.live ∧ 0 < u32 f.objs.length) →
      (k + fs.length ≤ 20 →
        (run_frames H c fs).detect_event = 0 ∧
          primary_notifications (run_actions H c fs) = []) ∧
      (k + fs.length = 21 → 0 < fs.length →
        (run_frames H c fs).detect_event = 1 ∧
          primary_notifications (run_actions H c fs) = [disposition.start]) := by
  intro fs
  induction fs with
  | nil =>
    intro c k _ _ _ _ he _ _
    simp [run_frames, run_actions, primary_notifications, he]
  | cons f fs ih =>
    intro c k hc hs hitr hsc he hlen hall
    have hlen' : k + (fs.length + 1) ≤ 21 := by simpa using hlen
    have hf := hall f (List.mem_cons_self f fs)
    have st := streak_step H c f k hc hs hf.1 hf.2 hitr hsc (by omega) he
    obtain ⟨s1, s2, s3, s4, s5, s6⟩ := st
    rw [run_frames_cons]
    simp only [run_actions, primary_notifications_append, s6, List.length_cons]
    by_cases hk20 : k = 20
    · have hnil : fs = [] := List.length_eq_zero.mp (by omega)
      subst hnil
      simp [run_frames, run_actions, primary_notifications, s5, hk20]
    · rw [if_neg hk20] at s5
      have := ih (video_thread_callback H c f).1 (k + 1) s1 s2 s3 s4 s5 (by omega)
        (fun g hg => hall g (List.mem_cons_of_mem f hg))
      simp only [if_neg hk20, List.nil_append]
      constructor
      · intro h; exact this.1 (by omega)
      · intro h _; exact this.2 (by omega) (by omega)

/-- C1: from an all-zero primary tracker with the primary event inactive, 21
processed frames with a positive detection count and weight 1 leave the event
inactive after each of the first 20 frames and active after the 21st, and
exactly one primary start notification is sent over the 21 frames (none over
the first 20). -/
theorem primary_start_on_21st_frame (H : Host) (c : cv_context) (fs : List frame_input)
    (hc : c.cascade = true) (hs : c.skip = 1) (hd : c.detected = zero_stats)
    (he : c.detect_event = 0) (hlen : fs.length = 21)
    (hall : ∀ f ∈ fs, f.live ∧ 0 < u32 f.objs.length) :
    (∀ k, k ≤ 20 → (run_frames H c (fs.take k)).detect_event = 0) ∧
    (run_frames H c fs).detect_event = 1 ∧
    primary_notifications (run_actions H c (fs.take 20)) = [] ∧
    primary_notifications (run_actions H c fs) = [disposition.start] := by
  have hitr : c.detected.itr = 0 := by rw [hd]; rfl
  have hsc : c.detected.simo_count = 0 := by rw [hd]; rfl
  have htake : ∀ k, k ≤ 20 → (fs.take k).length = k := by
    intro k hk; rw [List.length_take]; omega
  have hmem : ∀ k, ∀ f ∈ fs.take k, f.live ∧ 0 < u32 f.objs.length :=
    fun k f hf => hall f (List.mem_of_mem_take hf)
  have full := streak_run H fs c 0 hc hs hitr hsc he (by omega) hall
  refine ⟨?_, (full.2 (by omega) (by omega)).1, ?_, (full.2 (by omega) (by omega)).2⟩
  · intro k hk
    have := streak_run H (fs.take k) c 0 hc hs hitr hsc he (by rw [htake k hk]; omega) (hmem k)
    exact (this.1 (by rw [htake k hk]; omega)).1
  · have := streak_run H (fs.take 20) c 0 hc hs hitr hsc he
      (by rw [htake 20 (le_refl _)]; omega) (hmem 20)
    exact (this.1 (by rw [htake 20 (le_refl _)])).2


theorem miss_step (H : Host) (c : cv_context) (f : frame_input) (k : Nat)
    (hc : c.cascade = true) (hs : c.skip = 1) (hl : f.live) (hz : f.objs = [])
    (hm : c.detected.simo_miss_count = k) (hitr : k = 0 ∨ c.detected.itr < 500) (hk : k ≤ 19)
    (he : c.detect_event ≠ 0) :
    (video_thread_callback H c f).1.cascade = true ∧
    (video_thread_callback H c f).1.skip = 1 ∧
    (k < 19 →
      (video_thread_callback H c f).1.detected.simo_miss_count = k + 1 ∧
      (video_thread_callback H c f).1.detected.itr < 500 ∧
      (video_thread_callback H c f).1.detect_event = c.detect_event ∧
      primary_notifications (video_thread_callback H c f).2 = []) ∧
    (k = 19 →
      (video_thread_callback H c f).1.detect_event = 0 ∧
      (video_thread_callback H c f).1.shape = List.replicate MAX_SHAPES zero_shape ∧
      (video_thread_callback H c f).1.detected = zero_stats ∧
      (video_thread_callback H c f).1.nestDetected = zero_stats ∧
      primary_notifications (video_thread_callback H c f).2 = [disposition.stop]) := by
  have hd := detectAndDraw_detected H c f (cadence_skips_of_skip_one c hs)
  have hf := detectAndDraw_frame H c f
  rw [hs, u64_one, hz] at hd
  have hu : u32 ([] : List (Rect × Nat)).length = 0 := by decide
  rw [hu] at hd
  have h1 : (detectAndDraw H c f).detected.itr = 1 := by
    rw [hd, parse_stats_itr]; simp
  have h2 : (detectAndDraw H c f).detected.simo_count = 0 := by
    rw [hd, parse_stats_simo_count]; simp
  have h6 : (detectAndDraw H c f).detected.simo_miss_count = k + 1 := by
    rw [hd, parse_stats_simo_miss_count, hm]
    simp only [ne_eq, not_true_eq_false, if_false]
    rcases hitr with h0 | hlt
    · subst h0; split_ifs <;> decide
    · rw [if_neg (by omega)]; exact u32_of_lt (by omega)
  have h3 : (detectAndDraw H c f).detect_event = c.detect_event := hf.2.2.2.1
  have h4 : (detectAndDraw H c f).cascade = true := by rw [hf.1, hc]
  have h5 : (detectAndDraw H c f).skip = 1 := by rw [hf.2.2.2.2.2.1, hs]
  rw [video_thread_callback_live H c f hc hl]
  rw [← h3] at he
  rw [← h3]
  generalize detectAndDraw H c f = d at h1 h2 h3 h4 h5 h6 he
  have hp := primary_events_frame d
  have hnn : nested_events (primary_events d).1 = ((primary_events d).1, []) := by
    have : (primary_events d).1.detected.simo_count = 0 := by
      unfold primary_events
      split_ifs <;> simp [h2, reset_stats, zero_stats]
    simp [nested_events, this]
  simp only [evaluate_events, hnn, List.append_nil, hp.1, hp.2.1, h4, h5, true_and]
  unfold primary_events
  have hn20 : ¬ 20 < d.detected.simo_count := by omega
  simp only [hn20, if_false]
  constructor
  · intro hk19
    have : ¬ 20 ≤ d.detected.simo_miss_count := by omega
    rw [if_neg this]
    simp [h6, h1, primary_notifications]
  · intro hk19
    have : 20 ≤ d.detected.simo_miss_count := by omega
    rw [if_pos this, if_pos he]
    simp [reset_stats, primary_notifications]


theorem miss_run (H : Host) :
    ∀ (fs : List frame_input) (c : cv_context) (k : Nat),
      c.cascade = true → c.skip = 1 → c.detected.simo_miss_count = k →
      (k = 0 ∨ c.detected.itr < 500) → c.detect_event ≠ 0 → k + fs.length ≤ 20 →
      (∀ f ∈ fs, f.live ∧ f.objs = []) →
      (k + fs.length ≤ 19 →
        (run_frames H c fs).detect_event ≠ 0 ∧
          primary_notifications (run_actions H c fs) = []) ∧
      (k + fs.length = 20 → 0 < fs.length →
        (run_frames H c fs).detect_event = 0 ∧
          (run_frames H c fs).shape = List.replicate MAX_SHAPES zero_shape ∧
          (run_frames H c fs).detected = zero_stats ∧
          (run_frames H c fs).nestDetected = zero_stats ∧
          primary_notifications (run_actions H c fs) = [disposition.stop]) := by
  intro fs
  induction fs with
  | nil =>
    intro c k _ _ _ _ he _ _
    simp [run_frames, run_actions, primary_notifications, he]
  | cons f fs ih =>
    intro c k hc hs hm hitr he hlen hall
    have hlen' : k + (fs.length + 1) ≤ 20 := by simpa using hlen
    have hf := hall f (List.mem_cons_self f fs)
    obtain ⟨s1, s2, s3, s4⟩ := miss_step H c f k hc hs hf.1 hf.2 hm hitr (by omega) he
    rw [run_frames_cons]
    simp only [run_actions, primary_notifications_append, List.length_cons]
    by_cases hk19 : k = 19
    · have hnil : fs = [] := List.length_eq_zero.mp (by omega)
      subst hnil
      obtain ⟨t1, t2, t3, t4, t5⟩ := s4 hk19
      rw [t5]
      simp [run_frames, run_actions, primary_notifications, hk19, t1, t2, t3, t4]
    · obtain ⟨t1, t2, t3, t4⟩ := s3 (by omega)
      have := ih (video_thread_callback H c f).1 (k + 1) s1 s2 t1 (Or.inr t2) (by rw [t3]; exact he)
        (by omega) (fun g hg => hall g (List.mem_cons_of_mem f hg))
      simp only [t4, List.nil_append]
      constructor
      · intro h; exact this.1 (by omega)
      · intro h _; exact this.2 (by omega) (by omega)

/-- C2: from any state with the primary event active and a miss streak of 0,
20 processed frames with no detection and weight 1 keep the event active
through the first 19 frames and make it inactive on the 20th; exactly one
primary stop notification is sent (none over the first 19 frames), and after
the 20th frame all 32 shape entries and both trackers are all-zero. -/
theorem primary_stop_on_20th_miss (H : Host) (c : cv_context) (fs : List frame_input)
    (hc : c.cascade = true) (hs : c.skip = 1) (he : c.detect_event ≠ 0)
    (hm : c.detected.simo_miss_count = 0) (hlen : fs.length = 20)
    (hall : ∀ f ∈ fs, f.live ∧ f.objs = []) :
    (∀ k, k ≤ 19 → (run_frames H c (fs.take k)).detect_event ≠ 0) ∧
    (run_frames H c fs).detect_event = 0 ∧
    primary_notifications (run_actions H c (fs.take 19)) = [] ∧
    primary_notifications (run_actions H c fs) = [disposition.stop] ∧
    (run_frames H c fs).shape = List.replicate 32 zero_shape ∧
    (run_frames H c fs).detected = zero_stats ∧
    (run_frames H c fs).nestDetected = zero_stats := by
  have htake : ∀ k, k ≤ 19 → (fs.take k).length = k := by
    intro k hk; rw [List.length_take]; omega
  have hmem : ∀ k, ∀ f ∈ fs.take k, f.live ∧ f.objs = [] :=
    fun k f hf => hall f (List.mem_of_mem_take hf)
  have full := (miss_run H fs c 0 hc hs hm (Or.inl rfl) he (by omega) hall).2
    (by omega) (by omega)
  refine ⟨?_, full.1, ?_, full.2.2.2.2, full.2.1, full.2.2.1, full.2.2.2.1⟩
  · intro k hk
    have := miss_run H (fs.take k) c 0 hc hs hm (Or.inl rfl) he (by rw [htake k hk]; omega)
      (hmem k)
    exact (this.1 (by rw [htake k hk]; omega)).1
  · have := miss_run H (fs.take 19) c 0 hc hs hm (Or.inl rfl) he
      (by rw [htake 19 (le_refl _)]; omega) (hmem 19)
    exact (this.1 (by rw [htake 19 (le_refl _)])).2


theorem primary_events_cases (d : cv_context) :
    (primary_notifications (primary_events d).2 = [] ∧
      ((primary_events d).1.detect_event = 0 ↔ d.detect_event = 0)) ∨
    (primary_notifications (primary_events d).2 = [disposition.start] ∧
      d.detect_event = 0 ∧ (primary_events d).1.detect_event ≠ 0 ∧
      20 < d.detected.simo_count) ∨
    (primary_notifications (primary_events d).2 = [disposition.stop] ∧
      d.detect_event ≠ 0 ∧ (primary_events d).1.detect_event = 0 ∧
      20 ≤ d.detected.simo_miss_count) := by
  unfold primary_events
  split_ifs with h1 h2 h3 h4
  · right; left; simp [primary_notifications, h1, h2]
  · left; simp [primary_notifications]
  · right; right; simp [primary_notifications, h3, h4]
  · left
    have : d.detect_event = 0 := by simpa using h4
    simp [primary_notifications, this]
  · left; simp [primary_notifications]

theorem frame_cases (H : Host) (c : cv_context) (f : frame_input) :
    (primary_notifications (video_thread_callback H c f).2 = [] ∧
      ((video_thread_callback H c f).1.detect_event = 0 ↔ c.detect_event = 0)) ∨
    (primary_notifications (video_thread_callback H c f).2 = [disposition.start] ∧
      c.detect_event = 0 ∧ (video_thread_callback H c f).1.detect_event ≠ 0 ∧
      20 < (detectAndDraw H c f).detected.simo_count) ∨
    (primary_notifications (video_thread_callback H c f).2 = [disposition.stop] ∧
      c.detect_event ≠ 0 ∧ (video_thread_callback H c f).1.detect_event = 0 ∧
      20 ≤ (detectAndDraw H c f).detected.simo_miss_count) := by
  unfold video_thread_callback
  split_ifs
  · left; simp [primary_notifications]
  · left; simp [primary_notifications]
  · have hf := (detectAndDraw_frame H c f).2.2.2.1
    have hn := nested_events_frame (primary_events (detectAndDraw H c f)).1
    simp only [evaluate_events, primary_notifications_append, hn.2.2.1, hn.2.2.2.2.2.2.2.2.2,
      List.append_nil]
    rw [← hf]
    exact primary_events_cases _
  · left; simp [primary_notifications]

theorem alternating_run (H : Host) (fs : List frame_input) :
    ∀ c : cv_context,
      alternating (decide (c.detect_event ≠ 0))
        (primary_notifications (run_actions H c fs)) = true := by
  induction fs with
  | nil => intro c; simp [run_actions, primary_notifications, alternating]
  | cons f fs ih =>
    intro c
    simp only [run_actions, primary_notifications_append]
    have ih' := ih (video_thread_callback H c f).1
    rcases frame_cases H c f with ⟨h1, h2⟩ | ⟨h1, h2, h3, _⟩ | ⟨h1, h2, h3, _⟩
    · rw [h1, List.nil_append]
      have : decide (c.detect_event ≠ 0) = decide ((video_thread_callback H c f).1.detect_event ≠ 0) := by
        simp [h2]
      rw [this]; exact ih'
    · rw [h1]
      simp only [h2, h3, ne_eq, not_true_eq_false, not_false_eq_true, decide_True, decide_False,
        List.singleton_append, alternating] at ih' ⊢
      exact ih'
    · rw [h1]
      simp only [h2, h3, ne_eq, not_true_eq_false, not_false_eq_true, decide_True, decide_False,
        List.singleton_append, alternating] at ih' ⊢
      exact ih'

theorem notify_mem_primary (as : List action) (d : disposition) (n a l : Nat)
    (h : action.notify detect_type.primary d n a l ∈ as) : d ∈ primary_notifications as := by
  simp only [primary_notifications, List.mem_filterMap]
  exact ⟨_, h, rfl⟩

/-- C3: over any sequence of frames from the initial state, the primary
notifications alternate start, stop, start, ... beginning with start; a
start is sent only on a frame that found the event inactive and has a streak
count above 20 after the tracker update, and a stop only on a frame that
found the event active and has a miss streak of at least 20 after the
update. -/
theorem primary_notifications_alternate (H : Host) (c : cv_context) (fs : List frame_input)
    (hi : initial_context c) :
    alternating false (primary_notifications (run_actions H c fs)) = true ∧
    ∀ (pre post : List frame_input) (f : frame_input), fs = pre ++ f :: post →
      (∀ n a l, action.notify detect_type.primary disposition.start n a l ∈
          (video_thread_callback H (run_frames H c pre) f).2 →
        (run_frames H c pre).detect_event = 0 ∧
          20 < (detectAndDraw H (run_frames H c pre) f).detected.simo_count) ∧
      (∀ n a l, action.notify detect_type.primary disposition.stop n a l ∈
          (video_thread_callback H (run_frames H c pre) f).2 →
        (run_frames H c pre).detect_event ≠ 0 ∧
          20 ≤ (detectAndDraw H (run_frames H c pre) f).detected.simo_miss_count) := by
  constructor
  · have := alternating_run H fs c
    simpa [hi.2.2.1] using this
  · intro pre post f _
    constructor
    · intro n a l hm
      have hd := notify_mem_primary _ _ n a l hm
      rcases frame_cases H (run_frames H c pre) f with ⟨h1, _⟩ | ⟨_, h2, _, h4⟩ | ⟨h1, _⟩
      · rw [h1] at hd; simp at hd
      · exact ⟨h2, h4⟩
      · rw [h1] at hd; simp at hd
    · intro n a l hm
      have hd := notify_mem_primary _ _ n a l hm
      rcases frame_cases H (run_frames H c pre) f with ⟨h1, _⟩ | ⟨h1, _⟩ | ⟨_, h2, _, h4⟩
      · rw [h1] at hd; simp at hd
      · rw [h1] at hd; simp at hd
      · exact ⟨h2, h4⟩


theorem run_stats_snoc (s : detect_stats) (us : List (Nat × Nat)) (u : Nat × Nat) :
    run_stats s (us ++ [u]) = parse_stats (run_stats s us) u.1 u.2 := by
  simp [run_stats, List.foldl_append]

theorem float_round_of_lt {n : Nat} (h : n < 2 ^ 24) : float_round n = n := by
  unfold float_round; rw [if_pos h]

theorem steady_step (n : Nat) (h1 : 1 ≤ n) (h2 : n < 500) :
    parse_stats ⟨5, n, 0, 0, 5 * n, n, 5⟩ 5 1 = ⟨5, n + 1, 0, 0, 5 * (n + 1), n + 1, 5⟩ := by
  have e1 : float_round (5 + 10) = 15 := by decide
  have e2 : float_round 5 = 5 := by decide
  have e3 : u32 (n + 1) = n + 1 := u32_of_lt (by omega)
  have e4 : u32 (5 * n + 5) = 5 * (n + 1) := by rw [u32_of_lt (by omega)]; ring
  have e5 : 5 * (n + 1) / (n + 1) = 5 := Nat.mul_div_cancel _ (by omega)
  have e6 : ¬ 500 ≤ n := by omega
  simp [parse_stats, e1, e2, e3, e4, e5, e6]

theorem steady_run (n : Nat) (h : n < 500) :
    run_stats zero_stats (List.replicate (n + 1) (5, 1)) =
      ⟨5, n + 1, 0, 0, 5 * (n + 1), n + 1, 5⟩ := by
  induction n with
  | zero => decide
  | succ m ih =>
    rw [List.replicate_succ', run_stats_snoc, ih (by omega)]
    exact steady_step (m + 1) (by omega) h

/-- C4, as stated, fails: 500 updates of size 5 and weight 1 from the all-zero
tracker give a streak count of 500, and one more update of size 5 makes it 1,
because the tracker is reset when `itr` has reached 500. -/
theorem streak_drops_at_reset :
    run_stats zero_stats (List.replicate 500 (5, 1)) = ⟨5, 500, 0, 0, 2500, 500, 5⟩ ∧
    (parse_stats (run_stats zero_stats (List.replicate 500 (5, 1))) 5 1).simo_count = 1 := by
  have h := steady_run 499 (by decide)
  constructor
  · exact h
  · rw [h]; decide

/-- C4, amended: an update of size 0 always leaves a streak count of 0; an
update of positive size on a tracker with `itr < 500` adds the weight to the
streak count, which therefore does not decrease, as long as the sum fits the
32-bit counter; on a tracker with `itr >= 500` the streak restarts from the
weight. -/
theorem streak_count_update (s : detect_stats) (size skip : Nat) :
    (size = 0 → (parse_stats s size skip).simo_count = 0) ∧
    (0 < size → s.itr < 500 → s.simo_count + skip < 2 ^ 32 →
      (parse_stats s size skip).simo_count = s.simo_count + skip ∧
      s.simo_count ≤ (parse_stats s size skip).simo_count) ∧
    (0 < size → 500 ≤ s.itr → (parse_stats s size skip).simo_count = u32 skip) := by
  rw [parse_stats_simo_count]
  refine ⟨fun h => by simp [h], fun h hi ho => ?_, fun h hi => ?_⟩
  · rw [if_pos (by omega), if_neg (by omega), u32_of_lt ho]
    exact ⟨rfl, Nat.le_add_right _ _⟩
  · rw [if_pos (by omega), if_pos hi, Nat.zero_add]

/-- The amended C4 at three concrete trackers: a zero update, a positive update
below the reset bound, and a positive update at the reset bound. -/
theorem streak_count_update_witness :
    (parse_stats ⟨5, 3, 0, 0, 15, 3, 5⟩ 0 1).simo_count = 0 ∧
    (parse_stats ⟨5, 3, 0, 0, 15, 3, 5⟩ 7 2).simo_count = 3 + 2 ∧
    (parse_stats ⟨5, 500, 0, 0, 2500, 500, 5⟩ 7 2).simo_count = u32 2 :=
  ⟨(streak_count_update ⟨5, 3, 0, 0, 15, 3, 5⟩ 0 1).1 rfl,
    ((streak_count_update ⟨5, 3, 0, 0, 15, 3, 5⟩ 7 2).2.1 (by decide) (by decide) (by decide)).1,
    (streak_count_update ⟨5, 500, 0, 0, 2500, 500, 5⟩ 7 2).2.2 (by decide) (by decide)⟩

theorem parse_stats_itr_range (s : detect_stats) (size skip : Nat) :
    1 ≤ (parse_stats s size skip).itr ∧ (parse_stats s size skip).itr ≤ 500 := by
  rw [parse_stats_itr]
  split_ifs <;> omega

/-- C5: in every tracker state reached from the all-zero state by updates of
any sizes and weights `itr` is at most 500, and after every update it is
between 1 and 500. -/
theorem iterations_bounded (us : List (Nat × Nat)) :
    (run_stats zero_stats us).itr ≤ 500 ∧
    ∀ size skip : Nat,
      1 ≤ (run_stats zero_stats (us ++ [(size, skip)])).itr ∧
      (run_stats zero_stats (us ++ [(size, skip)])).itr ≤ 500 := by
  constructor
  · rcases List.eq_nil_or_concat us with h | ⟨vs, v, h⟩
    · subst h; decide
    · subst h; rw [List.concat_eq_append, run_stats_snoc]; exact (parse_stats_itr_range _ _ _).2
  · intro size skip
    rw [run_stats_snoc]
    exact parse_stats_itr_range _ _ _

/-- C6 fails on the code: after 100 updates of size 5 the tracker has sum 500
and average 5; an update of size 0 then leaves the sum at 500 and sets the
average to 500, since only `itr` and `avg` are zeroed and `avg` is recomputed
from the old sum over `itr = 1`. -/
theorem zero_update_keeps_sum :
    run_stats zero_stats (List.replicate 100 (5, 1)) = ⟨5, 100, 0, 0, 500, 100, 5⟩ ∧
    parse_stats (run_stats zero_stats (List.replicate 100 (5, 1))) 0 1 =
      ⟨5, 0, 1, 0, 500, 1, 500⟩ := by
  have h := steady_run 99 (by decide)
  constructor
  · exact h
  · rw [h]; decide


theorem primary_events_fixed_iff (c : cv_context) :
    primary_events c = (c, []) ↔
      ((20 < c.detected.simo_count → c.detect_event ≠ 0) ∧
        (¬ 20 < c.detected.simo_count → 20 ≤ c.detected.simo_miss_count →
          c.detect_event = 0)) := by
  unfold primary_events
  split_ifs with h1 h2 h3 h4
  · simp [h1, h2]
  · simp [h1, h2]
  · simp [h1, h3, h4]
  · have h0 : c.detect_event = 0 := by simpa using h4
    simp only [h1, h3, h0, false_implies, not_false_eq_true, true_implies, true_and, iff_true]
    cases c
    simp_all
  · simp [h1, h3]

theorem primary_events_idem (d : cv_context) :
    primary_events (primary_events d).1 = ((primary_events d).1, []) := by
  rw [primary_events_fixed_iff]
  unfold primary_events
  split_ifs <;> simp_all [reset_stats, zero_stats]

theorem nested_events_fixed_iff (c : cv_context) :
    nested_events c = (c, []) ↔
      ((c.nestedCascade && decide (20 < c.detected.simo_count)) = true →
        (((decide (20 < c.nestDetected.simo_count)
            && decide (c.nestDetected.avg < float_round c.nestDetected.last_score)
            && decide (5 < c.nestDetected.above_avg_simo_count)) = true →
          c.nest_detect_event ≠ 0) ∧
        ((decide (20 < c.nestDetected.simo_count)
            && decide (c.nestDetected.avg < float_round c.nestDetected.last_score)
            && decide (5 < c.nestDetected.above_avg_simo_count)) = false →
          c.nestDetected.above_avg_simo_count = 0 → c.nest_detect_event = 0))) := by
  unfold nested_events
  split_ifs with h1 h2 h3 h4 h5
  · simp only [h1, h2, h3]; simp
  · simp only [h1, h2]; simp [h3]
  · have h2' : (decide (20 < c.nestDetected.simo_count)
            && decide (c.nestDetected.avg < float_round c.nestDetected.last_score)
            && decide (5 < c.nestDetected.above_avg_simo_count)) = false := by simpa using h2
    simp only [h1, h2', h4]; simp [h5]
  · have h2' : (decide (20 < c.nestDetected.simo_count)
            && decide (c.nestDetected.avg < float_round c.nestDetected.last_score)
            && decide (5 < c.nestDetected.above_avg_simo_count)) = false := by simpa using h2
    have h0 : c.nest_detect_event = 0 := by simpa using h5
    simp only [h1, h2', h4, h0]
    cases c
    simp_all
  · have h2' : (decide (20 < c.nestDetected.simo_count)
            && decide (c.nestDetected.avg < float_round c.nestDetected.last_score)
            && decide (5 < c.nestDetected.above_avg_simo_count)) = false := by simpa using h2
    simp only [h1, h2']; simp [h4]
  · simp [h1]

theorem nested_events_idem (c : cv_context) :
    nested_events (nested_events c).1 = ((nested_events c).1, []) := by
  rw [nested_events_fixed_iff]
  unfold nested_events
  split_ifs with h1 h2 h3 h4 h5
  · simp [h2]
  · simp_all
  · simp [reset_stats, zero_stats]
  · simp_all
  · simp_all
  · simp [h1]

theorem evaluate_events_idem (d : cv_context) : settled (evaluate_events d).1 := by
  have h1 : primary_events (nested_events (primary_events d).1).1 =
      ((nested_events (primary_events d).1).1, []) := by
    have hn := nested_events_frame (primary_events d).1
    have hp := (primary_events_fixed_iff _).mp (primary_events_idem d)
    rw [primary_events_fixed_iff, hn.2.1, hn.2.2.1]
    exact hp
  unfold settled
  simp only [evaluate_events, h1, nested_events_idem, List.append_nil]

theorem settled_of_initial (c : cv_context) (hi : initial_context c) : settled c := by
  obtain ⟨h1, h2, h3, h4, _⟩ := hi
  have hp : primary_events c = (c, []) := by
    rw [primary_events_fixed_iff, h1, h3]; simp [zero_stats]
  unfold settled evaluate_events
  rw [hp]
  simp [nested_events, h1, zero_stats]

theorem primary_events_skip_count (c : cv_context) (n : Int) :
    primary_events { c with skip_count := n } =
      ({ (primary_events c).1 with skip_count := n }, (primary_events c).2) := by
  unfold primary_events
  split_ifs <;> rfl

theorem nested_events_skip_count (c : cv_context) (n : Int) :
    nested_events { c with skip_count := n } =
      ({ (nested_events c).1 with skip_count := n }, (nested_events c).2) := by
  unfold nested_events
  split_ifs <;> rfl

theorem evaluate_events_skip_count (c : cv_context) (n : Int) (h : settled c) :
    evaluate_events { c with skip_count := n } = ({ c with skip_count := n }, []) := by
  unfold settled at h
  have e : evaluate_events { c with skip_count := n } =
      ({ (evaluate_events c).1 with skip_count := n }, (evaluate_events c).2) := by
    simp only [evaluate_events, primary_events_skip_count, nested_events_skip_count]
  rw [e, h]


theorem settled_step (H : Host) (c : cv_context) (f : frame_input) (h : settled c) :
    settled (video_thread_callback H c f).1 := by
  unfold video_thread_callback
  split_ifs
  · exact h
  · exact h
  · exact evaluate_events_idem _
  · exact h

theorem settled_run (H : Host) (fs : List frame_input) :
    ∀ c : cv_context, settled c → settled (run_frames H c fs) := by
  induction fs with
  | nil => intro c h; exact h
  | cons f fs ih => intro c h; rw [run_frames_cons]; exact ih _ (settled_step H c f h)

theorem skipped_frame (H : Host) (c : cv_context) (f : frame_input) (hs : settled c)
    (hc : c.cascade = true) (hl : f.live) (hk : cadence_skips c = true) :
    video_thread_callback H c f = ({ c with skip_count := c.skip_count + 1 }, []) := by
  rw [video_thread_callback_live H c f hc hl]
  unfold detectAndDraw
  rw [if_pos hk]
  exact evaluate_events_skip_count c _ hs

/-- C8: in a state reached from the initial state by frame steps, a frame
that the cadence test skips changes the skip counter only (both trackers, the
shapes, the shape count and both event flags stay as they are) and sends
nothing to the host. -/
theorem skipped_frame_changes_only_counter (H : Host) (c : cv_context)
    (fs : List frame_input) (f : frame_input) (hi : initial_context c) (hl : f.live)
    (hc : (run_frames H c fs).cascade = true)
    (hk : cadence_skips (run_frames H c fs) = true) :
    video_thread_callback H (run_frames H c fs) f =
      ({ run_frames H c fs with skip_count := (run_frames H c fs).skip_count + 1 }, []) :=
  skipped_frame H _ f (settled_run H fs c (settled_of_initial c hi)) hc hl hk

theorem skip_run (H : Host) (c : cv_context) (fs : List frame_input) (k : Nat)
    (hs : settled c) (hc : c.cascade = true) (hk : c.skip = (k : Int)) (h1 : 1 < k)
    (hcx : (c.shape.getD 0 zero_shape).cx ≠ 0) (h0 : c.skip_count = 0)
    (hl : ∀ f ∈ fs, f.live) :
    ∀ j : Nat, j ≤ k → j ≤ fs.length →
      run_frames H c (fs.take j) = { c with skip_count := (j : Int) } := by
  intro j
  induction j with
  | zero =>
    intro _ _
    cases c
    simp_all [run_frames]
  | succ j ih =>
    intro hj hlen
    have hjl : j < fs.length := by omega
    rw [List.take_succ, List.getElem?_eq_getElem hjl, Option.toList_some, run_frames_append,
      ih (by omega) (by omega)]
    have hset : settled { c with skip_count := (j : Int) } := evaluate_events_skip_count c _ hs
    have hskip : cadence_skips { c with skip_count := (j : Int) } = true := by
      simp only [cadence_skips, hk]
      have : (1 : Int) < k := by exact_mod_cast h1
      have : (j : Int) < k := by exact_mod_cast (show j < k by omega)
      have hcx' := hcx
      rw [List.getD_eq_getElem?_getD] at hcx'
      simp [*]
    have := skipped_frame H _ fs[j] hset hc (hl _ (List.getElem_mem hjl)) hskip
    simp [run_frames, this]


theorem overlay_match_nick (o : overlay) (p q : String) (nick : String)
    (hn : zstr (some nick) = false) :
    overlay_match o p (some nick) = overlay_match o q (some nick) := by
  unfold overlay_match
  cases o.png_path <;> simp [hn]

theorem find_range_succ (p : Nat → Bool) (n : Nat)
    (h1 : (List.range n).find? p = none) (h2 : p n = true) :
    (List.range (n + 1)).find? p = some n := by
  rw [List.range_succ, List.find?_append, h1]
  simp [h2]

/-- C9: when `add_overlay` with a non-empty nickname succeeds and returns
index `i`, a second `add_overlay` with the same nickname and any path returns
`i` again and leaves the whole context, so the count and every entry,
unchanged. -/
theorem add_overlay_same_nick (H : Host) (c c1 : cv_context) (path path' nick : String)
    (i : Int) (hlen : c.overlay.length = MAX_OVERLAY) (hn : zstr (some nick) = false)
    (hadd : add_overlay H c path (some nick) = some (c1, i)) (hi : 0 ≤ i) :
    add_overlay H c1 path' (some nick) = some (c1, i) := by
  have hfun : (fun x => overlay_match (c.overlay.getD x zero_overlay) path (some nick)) =
      (fun x => overlay_match (c.overlay.getD x zero_overlay) path' (some nick)) := by
    funext x; exact overlay_match_nick _ _ _ _ hn
  unfold add_overlay at hadd
  simp only [] at hadd
  split at hadd
  · rename_i x hx
    have hc : c1 = c ∧ i = x := by
      simp only [Option.some.injEq, Prod.mk.injEq] at hadd
      exact ⟨hadd.1.symm, hadd.2.symm⟩
    obtain ⟨rfl, rfl⟩ := hc
    unfold add_overlay
    simp only []
    rw [← hfun, hx]
  · rename_i hx
    split at hadd
    · exact absurd hadd (by simp)
    · rename_i h32
      have h32' : c.overlay_count < MAX_OVERLAY := by omega
      split at hadd
      · rename_i png hpng
        simp only [Option.some.injEq, Prod.mk.injEq] at hadd
        obtain ⟨rfl, rfl⟩ := hadd
        have hcnt : u32 (c.overlay_count + 1) = c.overlay_count + 1 := by
          apply u32_of_lt
          have : MAX_OVERLAY = 32 := rfl
          omega
        have hmin : min (c.overlay_count + 1) MAX_OVERLAY = c.overlay_count + 1 := by omega
        have hmin0 : min c.overlay_count MAX_OVERLAY = c.overlay_count := by omega
        rw [hmin0] at hx
        unfold add_overlay
        simp only [hcnt, hmin]
        rw [find_range_succ]
        · rw [List.find?_eq_none] at hx ⊢
          intro x hxm
          have hxl : x < c.overlay_count := List.mem_range.mp hxm
          have := hx x hxm
          rw [List.getD_eq_getElem?_getD, List.getElem?_set_ne (by omega),
            ← List.getD_eq_getElem?_getD, ← overlay_match_nick _ path path' nick hn]
          exact this
        · have hl : c.overlay_count < c.overlay.length := by rw [hlen]; exact h32'
          rw [List.getD_eq_getElem?_getD, List.getElem?_set_self hl]
          simp only [Option.getD_some, hn]
          unfold overlay_match
          split_ifs <;> simp_all
      · simp only [Option.some.injEq, Prod.mk.injEq] at hadd
        omega


theorem shift_down_length (ov : List overlay) (x : Nat) :
    (shift_down ov x).length = ov.length := by
  simp [shift_down]

theorem shift_loop_length (l : List overlay) (xs : List Nat) :
    (xs.foldl shift_down l).length = l.length := by
  induction xs generalizing l with
  | nil => rfl
  | cons x xs ih => rw [List.foldl_cons, ih, shift_down_length]

theorem shift_loop_getElem? (l : List overlay) (i : Nat) :
    ∀ m, i + m < l.length → ∀ j,
      ((List.range' (i + 1) m).foldl shift_down (l.set i zero_overlay))[j]? =
        if j < i then l[j]?
        else if j < i + m then l[j + 1]?
        else if j = i + m then some zero_overlay
        else l[j]? := by
  intro m
  induction m with
  | zero =>
    intro h j
    simp only [List.range'_zero, List.foldl_nil, Nat.add_zero, List.getElem?_set]
    have h' : i < l.length := by omega
    by_cases h1 : i = j
    · subst h1; simp [h']
    · by_cases h2 : j < i
      · simp [h1, h2]
      · have : ¬ j = i := fun e => h1 e.symm
        simp [h1, h2, this]
  | succ m ih =>
    intro h j
    have ih' := ih (by omega)
    rw [List.range'_concat, List.foldl_append]
    simp only [List.foldl_cons, List.foldl_nil, Nat.one_mul]
    generalize hprev : (List.range' (i + 1) m).foldl shift_down (l.set i zero_overlay) = prev
      at ih'
    have hlen : prev.length = l.length := by
      rw [← hprev, shift_loop_length, List.length_set]
    have hx : prev.getD (i + 1 + m) zero_overlay = l[i + 1 + m]?.getD zero_overlay := by
      rw [List.getD_eq_getElem?_getD, ih' (i + 1 + m)]
      rw [if_neg (by omega), if_neg (by omega), if_neg (by omega)]
    have hsome : l[i + 1 + m]? = some (l[i + 1 + m]?.getD zero_overlay) := by
      rw [List.getElem?_eq_getElem (by omega)]; rfl
    unfold shift_down
    rw [List.getElem?_set, List.getElem?_set, List.length_set, hlen, hx, ih' j]
    split_ifs with a1 a2 a3 a4 a5 a6 a7 a8 a9
    all_goals first
      | rfl
      | omega
      | (have e : j + 1 = i + 1 + m := by omega
         rw [e]; exact hsome.symm)

theorem shift_loop_eq (l : List overlay) (i n : Nat) (hi : i < n) (hn : n ≤ l.length) :
    (List.range' (i + 1) (n - (i + 1))).foldl shift_down (l.set i zero_overlay) =
      (l.take n).eraseIdx i ++ zero_overlay :: l.drop n := by
  apply List.ext_getElem?
  intro j
  rw [shift_loop_getElem? l i (n - (i + 1)) (by omega) j]
  have hlt : ((l.take n).eraseIdx i).length = n - 1 := by
    rw [List.length_eraseIdx, List.length_take, Nat.min_eq_left hn, if_pos hi]
  rw [List.getElem?_append, hlt, List.getElem?_eraseIdx]
  by_cases h1 : j < i
  · rw [if_pos h1, if_pos (by omega), if_pos h1, List.getElem?_take_of_lt (by omega)]
  · by_cases h2 : j < n - 1
    · rw [if_neg h1, if_pos (by omega), if_pos h2, if_neg h1,
        List.getElem?_take_of_lt (by omega)]
    · by_cases h3 : j = n - 1
      · subst h3
        rw [if_neg h1, if_neg (by omega), if_pos (by omega), if_neg h2, Nat.sub_self,
          List.getElem?_cons_zero]
      · rw [if_neg h1, if_neg (by omega), if_neg (by omega), if_neg h2]
        obtain ⟨d, hd⟩ : ∃ d, j - (n - 1) = d + 1 := ⟨j - n, by omega⟩
        rw [hd, List.getElem?_cons_succ, List.getElem?_drop]
        congr 1
        omega

/-- C10: on a registry with `n` entries, `1 <= n <= 32`, and for an index
`i < n`, `clear_overlay` returns `max (i - 1) 0` and leaves `n - 1` entries:
the first `n` old entries with the `i`-th removed, in their old order, then
a zeroed slot `n - 1`, the slots from `n` on being untouched. -/
theorem clear_overlay_compacts (c : cv_context) (n i : Nat)
    (hlen : c.overlay.length = MAX_OVERLAY) (hcount : c.overlay_count = n) (h1 : 1 ≤ n)
    (h32 : n ≤ 32) (hi : i < n) :
    clear_overlay c (i : Int) =
      some ({ c with
              overlay := (c.overlay.take n).eraseIdx i ++ zero_overlay :: c.overlay.drop n
              overlay_count := n - 1 },
        max ((i : Int) - 1) 0) := by
  have hM : MAX_OVERLAY = 32 := rfl
  unfold clear_overlay
  have hcond : ¬ ((i : Int) < 0 ∨ (MAX_OVERLAY : Int) ≤ (i : Int) ∨ MAX_OVERLAY < c.overlay_count) := by
    rw [hcount, hM]
    omega
  simp only [hcond, if_false, Int.toNat_natCast]
  have hcnt : u32 (c.overlay_count + 2 ^ 32 - 1) = n - 1 := by
    rw [hcount]
    unfold u32
    omega
  have hret : (if (i : Int) - 1 > 0 then (i : Int) - 1 else 0) = max ((i : Int) - 1) 0 := by
    split_ifs with h
    · exact (max_eq_left (le_of_lt h)).symm
    · exact (max_eq_right (by omega)).symm
  rw [hcnt, hret, hcount, shift_loop_eq c.overlay i n hi (by rw [hlen, hM]; exact h32)]


/-- C7 fails on the code: with `skip = k > 1`, a tracked shape and the skip
counter at 0 (as every processed frame leaves it), the next `k` frames are
all skipped and the frame after them is processed, so `k` frames, not
`k - 1`, lie between two processed frames. -/
theorem cadence_skips_k_frames (H : Host) (c : cv_context) (pre fs : List frame_input)
    (k : Nat) (hi : initial_context c) (hc : (run_frames H c pre).cascade = true)
    (hk : (run_frames H c pre).skip = (k : Int)) (h1 : 1 < k)
    (hcx : ((run_frames H c pre).shape.getD 0 zero_shape).cx ≠ 0)
    (h0 : (run_frames H c pre).skip_count = 0) (hlen : fs.length = k + 1)
    (hl : ∀ f ∈ fs, f.live) :
    (∀ j, j < k → cadence_skips (run_frames H (run_frames H c pre) (fs.take j)) = true) ∧
    cadence_skips (run_frames H (run_frames H c pre) (fs.take k)) = false := by
  have hs := settled_run H pre c (settled_of_initial c hi)
  have hrun := skip_run H (run_frames H c pre) fs k hs hc hk h1 hcx h0 hl
  have hcx' := hcx
  rw [List.getD_eq_getElem?_getD] at hcx'
  have hk1 : (1 : Int) < k := by exact_mod_cast h1
  constructor
  · intro j hj
    rw [hrun j (by omega) (by omega)]
    have : (j : Int) < k := by exact_mod_cast hj
    simp [cadence_skips, hk, hcx', hk1, this]
  · rw [hrun k (le_refl _) (by omega)]
    simp [cadence_skips, hk]

/-- With `skip = 2`, after one processed frame that tracks a shape, the next
two frames are skipped and the third is processed. -/
theorem cadence_skips_k_frames_witness :
    cadence_skips (run_frames sample_host (sample_context 2) [sample_frame 1]) = true ∧
    cadence_skips (run_frames sample_host
      (run_frames sample_host (sample_context 2) [sample_frame 1])
      ((List.replicate 3 (sample_frame 1)).take 1)) = true ∧
    cadence_skips (run_frames sample_host
      (run_frames sample_host (sample_context 2) [sample_frame 1])
      ((List.replicate 3 (sample_frame 1)).take 2)) = false := by
  have h := cadence_skips_k_frames sample_host (sample_context 2) [sample_frame 1]
    (List.replicate 3 (sample_frame 1)) 2 ⟨rfl, rfl, rfl, rfl, rfl, rfl, rfl⟩ (by decide)
    (by decide) (by decide) (by decide) (by decide) (by decide)
    (fun f hf => by rw [List.eq_of_mem_replicate hf]; exact ⟨rfl, rfl⟩)
  exact ⟨h.1 0 (by decide), h.1 1 (by decide), h.2⟩

/-- C1 on 21 sample frames with one detection each. -/
theorem primary_start_on_21st_frame_witness :
    (run_frames sample_host (sample_context 1)
      ((List.replicate 21 (sample_frame 1)).take 20)).detect_event = 0 ∧
    (run_frames sample_host (sample_context 1) (List.replicate 21 (sample_frame 1))).detect_event
      = 1 ∧
    primary_notifications
      (run_actions sample_host (sample_context 1) (List.replicate 21 (sample_frame 1))) =
        [disposition.start] := by
  have h := primary_start_on_21st_frame sample_host (sample_context 1)
    (List.replicate 21 (sample_frame 1)) rfl rfl rfl rfl (by decide)
    (fun f hf => by rw [List.eq_of_mem_replicate hf]; exact ⟨⟨rfl, rfl⟩, by decide⟩)
  exact ⟨h.1 20 (le_refl _), h.2.1, h.2.2.2⟩

/-- C2 on 20 sample frames without detection, from an active sample context. -/
theorem primary_stop_on_20th_miss_witness :
    (run_frames sample_host { sample_context 1 with detect_event := 1 }
      ((List.replicate 20 (sample_frame 0)).take 19)).detect_event ≠ 0 ∧
    (run_frames sample_host { sample_context 1 with detect_event := 1 }
      (List.replicate 20 (sample_frame 0))).detect_event = 0 ∧
    primary_notifications
      (run_actions sample_host { sample_context 1 with detect_event := 1 }
        (List.replicate 20 (sample_frame 0))) = [disposition.stop] := by
  have h := primary_stop_on_20th_miss sample_host { sample_context 1 with detect_event := 1 }
    (List.replicate 20 (sample_frame 0)) rfl rfl (by decide) rfl (by decide)
    (fun f hf => by rw [List.eq_of_mem_replicate hf]; exact ⟨⟨rfl, rfl⟩, rfl⟩)
  exact ⟨h.1 19 (le_refl _), h.2.1, h.2.2.2.1⟩

/-- C3 on 21 sample frames from the sample initial context. -/
theorem primary_notifications_alternate_witness :
    initial_context (sample_context 1) ∧
    alternating false (primary_notifications
      (run_actions sample_host (sample_context 1) (List.replicate 21 (sample_frame 1)))) = true :=
  ⟨⟨rfl, rfl, rfl, rfl, rfl, rfl, rfl⟩,
    (primary_notifications_alternate sample_host (sample_context 1)
      (List.replicate 21 (sample_frame 1)) ⟨rfl, rfl, rfl, rfl, rfl, rfl, rfl⟩).1⟩

/-- C8 on the frame that follows the first processed frame of a sample run
with `skip = 2`. -/
theorem skipped_frame_changes_only_counter_witness :
    cadence_skips (run_frames sample_host (sample_context 2) [sample_frame 1]) = true ∧
    video_thread_callback sample_host
        (run_frames sample_host (sample_context 2) [sample_frame 1]) (sample_frame 3) =
      ({ run_frames sample_host (sample_context 2) [sample_frame 1] with
          skip_count :=
            (run_frames sample_host (sample_context 2) [sample_frame 1]).skip_count + 1 }, []) :=
  ⟨by decide,
    skipped_frame_changes_only_counter sample_host (sample_context 2) [sample_frame 1]
      (sample_frame 3) ⟨rfl, rfl, rfl, rfl, rfl, rfl, rfl⟩ ⟨rfl, rfl⟩ (by decide) (by decide)⟩

/-- C9 on the sample registry: `face.png` with nickname `a`, then another
path with the same nickname. -/
theorem add_overlay_same_nick_witness :
    add_overlay sample_host (sample_context 1) "face.png" (some "a") =
      some (sample_registry, 0) ∧
    add_overlay sample_host sample_registry "other.png" (some "a") =
      some (sample_registry, 0) :=
  ⟨by decide,
    add_overlay_same_nick sample_host (sample_context 1) sample_registry "face.png" "other.png"
      "a" 0 (by decide) (by decide) (by decide) (le_refl _)⟩

/-- C10 on a registry of three entries `face`, `hat`, `nose`.  Clearing the
middle entry shifts `nose` down to slot 1, keeps `face` in slot 0, zeroes
slot 2, leaves 2 entries and returns 0; clearing entry 0 shifts `hat` and
`nose` down to slots 0 and 1; clearing entry 2 shifts nothing and returns
1. -/
theorem clear_overlay_compacts_witness :
    clear_overlay sample_triple_registry ((1 : Nat) : Int) =
      some ({ sample_context 1 with
              overlay := ((List.replicate MAX_OVERLAY zero_overlay).set 0
                ⟨some "face.png", some "a", some ⟨64, 64⟩, 0, 0, 1⟩).set 1
                ⟨some "nose.png", some "c", some ⟨64, 64⟩, 0, 0, 1⟩
              overlay_count := 2 }, 0) ∧
    clear_overlay sample_triple_registry ((0 : Nat) : Int) =
      some ({ sample_context 1 with
              overlay := ((List.replicate MAX_OVERLAY zero_overlay).set 0
                ⟨some "hat.png", some "b", some ⟨64, 64⟩, 0, 0, 1⟩).set 1
                ⟨some "nose.png", some "c", some ⟨64, 64⟩, 0, 0, 1⟩
              overlay_count := 2 }, 0) ∧
    clear_overlay sample_triple_registry ((2 : Nat) : Int) =
      some (sample_pair_registry, 1) :=
  ⟨(clear_overlay_compacts sample_triple_registry 3 1 (by decide) rfl (by decide) (by decide)
      (by decide)).trans (by decide),
    (clear_overlay_compacts sample_triple_registry 3 0 (by decide) rfl (by decide) (by decide)
      (by decide)).trans (by decide),
    (clear_overlay_compacts sample_triple_registry 3 2 (by decide) rfl (by decide) (by decide)
      (by decide)).trans (by decide)⟩

/-! ## Overlay registry: clear then add, capacity, load failure -/

theorem add_overlay_of_no_match (H : Host) (c : cv_context) (path : String)
    (nick : Option String) (hcount : c.overlay_count < MAX_OVERLAY)
    (hkey : ∀ x, x < c.overlay_count →
      overlay_match (c.overlay.getD x zero_overlay) path nick = false) :
    add_overlay H c path nick =
      match H.read_png (overlay_path H c path) with
      | some png =>
        some ({ c with
                overlay := c.overlay.set c.overlay_count
                  (let o1 := { c.overlay.getD c.overlay_count zero_overlay with
                                png_path := some (overlay_path H c path), png := some png }
                   let o2 := if !zstr nick then { o1 with nick := nick } else o1
                   if o2.shape_scale = 0 then { o2 with shape_scale := 1 } else o2)
                overlay_count := u32 (c.overlay_count + 1) },
          (c.overlay_count : Int))
      | none =>
        some ({ c with
                overlay := c.overlay.set c.overlay_count
                  { c.overlay.getD c.overlay_count zero_overlay with png_path := none } },
          -1) := by
  have hmin : min c.overlay_count MAX_OVERLAY = c.overlay_count := by omega
  have hfind : (List.range (min c.overlay_count MAX_OVERLAY)).find?
      (fun x => overlay_match (c.overlay.getD x zero_overlay) path nick) = none := by
    rw [hmin, List.find?_eq_none]
    intro x hx
    rw [hkey x (List.mem_range.mp hx)]
    simp
  unfold add_overlay
  simp only [hfind]
  rw [if_neg (by omega)]
  rfl

theorem add_overlay_of_full (H : Host) (c : cv_context) (path : String)
    (nick : Option String) (hcount : MAX_OVERLAY ≤ c.overlay_count)
    (hkey : ∀ x, x < MAX_OVERLAY →
      overlay_match (c.overlay.getD x zero_overlay) path nick = false) :
    add_overlay H c path nick = none := by
  have hmin : min c.overlay_count MAX_OVERLAY = MAX_OVERLAY := by omega
  have hfind : (List.range (min c.overlay_count MAX_OVERLAY)).find?
      (fun x => overlay_match (c.overlay.getD x zero_overlay) path nick) = none := by
    rw [hmin, List.find?_eq_none]
    intro x hx
    rw [hkey x (List.mem_range.mp hx)]
    simp
  unfold add_overlay
  simp only [hfind]
  rw [if_pos hcount]

/-- C12 fails on the code: `add_overlay` has no capacity test.  On a registry
of 32 entries, none of which has the key, it goes on to store the path in
`overlay[32]`, one slot past the array (the value `none` of the embedding),
instead of dropping the request. -/
theorem add_overlay_full_registry (H : Host) (c : cv_context) (path : String)
    (nick : Option String) (hcount : c.overlay_count = 32)
    (hkey : ∀ x, x < 32 →
      overlay_match (c.overlay.getD x zero_overlay) path nick = false) :
    add_overlay H c path nick = none :=
  add_overlay_of_full H c path nick (by rw [hcount]; decide) hkey

/-- C12 at the sample registry of 32 entries, which 32 calls of `add_overlay`
build from the empty one. -/
theorem add_overlay_full_registry_witness :
    add_overlays sample_host (sample_context 1)
        ((List.range 32).map fun k => ("face.png", some (sample_nick k))) =
      some sample_full_registry ∧
    add_overlay sample_host sample_full_registry "extra.png" (some "z") = none :=
  ⟨by decide,
    add_overlay_full_registry sample_host sample_full_registry "extra.png" (some "z") rfl
      (by decide)⟩

/-- C13: on a registry of fewer than 32 entries, an `add_overlay` whose key
matches no entry and whose image does not load returns `-1`, leaves the count
and every entry below the count as they were, and leaves no path in the slot
at the count. -/
theorem add_overlay_load_failure (H : Host) (c : cv_context) (path : String)
    (nick : Option String) (hcount : c.overlay_count < 32)
    (hkey : ∀ x, x < c.overlay_count →
      overlay_match (c.overlay.getD x zero_overlay) path nick = false)
    (hload : H.read_png (overlay_path H c path) = none) :
    ∃ c', add_overlay H c path nick = some (c', -1) ∧
      c'.overlay_count = c.overlay_count ∧
      c'.overlay.length = c.overlay.length ∧
      (∀ x, x < c.overlay_count →
        c'.overlay.getD x zero_overlay = c.overlay.getD x zero_overlay) ∧
      (c'.overlay.getD c.overlay_count zero_overlay).png_path = none := by
  refine ⟨{ c with
             overlay := c.overlay.set c.overlay_count
               { c.overlay.getD c.overlay_count zero_overlay with png_path := none } },
    ?_, ?_, ?_, ?_, ?_⟩
  · rw [add_overlay_of_no_match H c path nick hcount hkey, hload]
  · rfl
  · simp
  · intro x hx
    simp only [List.getD_eq_getElem?_getD]
    rw [List.getElem?_set_ne (by omega)]
  · simp only [List.getD_eq_getElem?_getD, List.getElem?_set]
    by_cases hl : c.overlay_count < c.overlay.length
    · simp [hl]
    · simp [hl, zero_overlay]

/-- C13 at the empty sample registry with a loader that fails. -/
theorem add_overlay_load_failure_witness :
    ∃ c', add_overlay sample_host_no_png (sample_context 1) "face.png" (some "a") =
        some (c', -1) ∧
      c'.overlay_count = (sample_context 1).overlay_count ∧
      c'.overlay.length = (sample_context 1).overlay.length ∧
      (∀ x, x < (sample_context 1).overlay_count →
        c'.overlay.getD x zero_overlay = (sample_context 1).overlay.getD x zero_overlay) ∧
      (c'.overlay.getD (sample_context 1).overlay_count zero_overlay).png_path = none :=
  add_overlay_load_failure sample_host_no_png (sample_context 1) "face.png" (some "a")
    (by decide) (by decide) rfl

theorem clear_overlay_value (c : cv_context) (n i : Nat)
    (hlen : c.overlay.length = MAX_OVERLAY) (hcount : c.overlay_count = n) (h32 : n ≤ 32)
    (hi : i < n) :
    clear_overlay c (i : Int) =
      some ({ c with
              overlay := (c.overlay.take n).eraseIdx i ++ zero_overlay :: c.overlay.drop n
              overlay_count := n - 1 },
        max ((i : Int) - 1) 0) := by
  have hM : MAX_OVERLAY = 32 := rfl
  unfold clear_overlay
  have hcond : ¬ ((i : Int) < 0 ∨ (MAX_OVERLAY : Int) ≤ (i : Int) ∨
      MAX_OVERLAY < c.overlay_count) := by
    rw [hcount, hM]
    omega
  have hcnt : u32 (c.overlay_count + 2 ^ 32 - 1) = n - 1 := by
    rw [hcount]
    unfold u32
    omega
  have hret : (if (i : Int) - 1 > 0 then (i : Int) - 1 else 0) = max ((i : Int) - 1) 0 := by
    split_ifs with h
    · exact (max_eq_left (le_of_lt h)).symm
    · exact (max_eq_right (by omega)).symm
  simp only [hcond, if_false, Int.toNat_natCast]
  rw [hcnt, hret, hcount, shift_loop_eq c.overlay i n hi (by rw [hlen, hM]; exact h32)]

theorem compacted_getD (l : List overlay) (n i y : Nat) (hi : i < n) (hn : n ≤ l.length)
    (hy : y < n - 1) :
    ((l.take n).eraseIdx i ++ zero_overlay :: l.drop n).getD y zero_overlay =
      if y < i then l.getD y zero_overlay else l.getD (y + 1) zero_overlay := by
  have hlt : ((l.take n).eraseIdx i).length = n - 1 := by
    rw [List.length_eraseIdx, List.length_take, Nat.min_eq_left hn, if_pos hi]
  simp only [List.getD_eq_getElem?_getD]
  rw [List.getElem?_append_left (by omega), List.getElem?_eraseIdx]
  split_ifs
  · rw [List.getElem?_take_of_lt (by omega)]
  · rw [List.getElem?_take_of_lt (by omega)]

/-- C11: on a registry of `n` entries, `clear_overlay` at `i < n` followed by
a successful `add_overlay` whose key matches none of the other entries puts
the new entry into slot `n - 1`, the slot that the compaction has freed, and
returns that index; the count is `n` again and the slots below `n - 1` hold
the `n - 1` surviving entries in their old order. -/
theorem clear_then_add_reuses_slot (H : Host) (c c2 : cv_context) (n i : Nat)
    (path : String) (nick : Option String) (j : Int)
    (hlen : c.overlay.length = MAX_OVERLAY) (hcount : c.overlay_count = n) (h32 : n ≤ 32)
    (hi : i < n)
    (hkey : ∀ x, x < n → x ≠ i →
      overlay_match (c.overlay.getD x zero_overlay) path nick = false)
    (hadd : (clear_overlay c (i : Int)).bind (fun p => add_overlay H p.1 path nick) =
      some (c2, j))
    (hj : 0 ≤ j) :
    j = ((n - 1 : Nat) : Int) ∧ c2.overlay_count = n ∧
      c2.overlay.take (n - 1) = (c.overlay.take n).eraseIdx i := by
  have hM : MAX_OVERLAY = 32 := rfl
  have hn : n ≤ c.overlay.length := by rw [hlen, hM]; exact h32
  rw [clear_overlay_value c n i hlen hcount h32 hi] at hadd
  simp only [Option.some_bind] at hadd
  have hlt : ((c.overlay.take n).eraseIdx i).length = n - 1 := by
    rw [List.length_eraseIdx, List.length_take, Nat.min_eq_left hn, if_pos hi]
  rw [add_overlay_of_no_match H _ path nick (by show n - 1 < MAX_OVERLAY; omega)] at hadd
  · cases hpng : H.read_png (overlay_path H
        { c with
          overlay := (c.overlay.take n).eraseIdx i ++ zero_overlay :: c.overlay.drop n
          overlay_count := n - 1 } path) with
    | none =>
      rw [hpng] at hadd
      simp only [Option.some.injEq, Prod.mk.injEq] at hadd
      omega
    | some png =>
      rw [hpng] at hadd
      simp only [Option.some.injEq, Prod.mk.injEq] at hadd
      obtain ⟨rfl, rfl⟩ := hadd
      refine ⟨rfl, ?_, ?_⟩
      · show u32 (n - 1 + 1) = n
        rw [u32_of_lt (by omega)]
        omega
      · show (List.set _ (n - 1) _).take (n - 1) = _
        rw [List.set_append, hlt, if_neg (lt_irrefl _)]
        exact List.take_left' hlt
  · intro y hy
    have hy' : y < n - 1 := hy
    rw [compacted_getD c.overlay n i y hi hn hy']
    split_ifs with h
    · exact hkey y (by omega) (by omega)
    · exact hkey (y + 1) (by omega) (by omega)

/-- C11 at a registry of two entries: entry 0 is cleared and a third overlay
is added; it lands in slot 1. -/
theorem clear_then_add_reuses_slot_witness :
    (clear_overlay sample_pair_registry ((0 : Nat) : Int)).bind
        (fun p => add_overlay sample_host p.1 "nose.png" (some "c")) =
      some (sample_pair_cleared_added, 1) ∧
    (1 : Int) = ((2 - 1 : Nat) : Int) ∧ sample_pair_cleared_added.overlay_count = 2 ∧
      sample_pair_cleared_added.overlay.take (2 - 1) =
        (sample_pair_registry.overlay.take 2).eraseIdx 0 :=
  ⟨by decide,
    clear_then_add_reuses_slot sample_host sample_pair_registry sample_pair_cleared_added 2 0
      "nose.png" (some "c") 1 (by decide) rfl (by decide) (by decide) (by decide) (by decide)
      (by decide)⟩

/-! ## Nested event and nested region -/

theorem nested_notifications_append (as bs : List action) :
    nested_notifications (as ++ bs) = nested_notifications as ++ nested_notifications bs := by
  simp [nested_notifications]

theorem primary_events_nested_notifications (d : cv_context) :
    nested_notifications (primary_events d).2 = [] := by
  unfold primary_events
  split_ifs <;> simp [nested_notifications]

theorem primary_events_of_streak (d : cv_context) (hs : 20 < d.detected.simo_count) :
    (primary_events d).1.detect_event ≠ 0 ∧
    (primary_events d).1.detected = d.detected ∧
    (primary_events d).1.nestDetected = d.nestDetected ∧
    (primary_events d).1.shape = d.shape := by
  unfold primary_events
  rw [if_pos hs]
  split_ifs with h
  · simp
  · exact ⟨h, rfl, rfl, rfl⟩

theorem primary_events_streak_le (d : cv_context)
    (hs : 20 < (primary_events d).1.detected.simo_count) : 20 < d.detected.simo_count := by
  by_contra hn
  unfold primary_events at hs
  rw [if_neg hn] at hs
  split_ifs at hs <;> simp_all [reset_stats, zero_stats]

set_option maxRecDepth 20000 in
/-- C17, as stated, fails.  The sample run starts the primary and the nested
event and ends with a frame without detection, so the primary streak count
is back to 0 while the primary event stays active.  On the next frame two
nested updates bring the nested above-average streak to 0; at evaluation time
the primary event is active, a nested detector is configured, the nested
event is active and the nested above-average streak is 0, yet the nested
event stays active, nothing is sent and the nested tracker is not reset,
because the primary streak count is 1. -/
theorem nested_stop_needs_primary_streak :
    (primary_events (detectAndDraw sample_host
        (run_frames sample_host sample_nested_context sample_nested_run)
        (sample_nested_frame 2 1))).1.detect_event = 1 ∧
    (primary_events (detectAndDraw sample_host
        (run_frames sample_host sample_nested_context sample_nested_run)
        (sample_nested_frame 2 1))).1.nestedCascade = true ∧
    (primary_events (detectAndDraw sample_host
        (run_frames sample_host sample_nested_context sample_nested_run)
        (sample_nested_frame 2 1))).1.nest_detect_event = 1 ∧
    (primary_events (detectAndDraw sample_host
        (run_frames sample_host sample_nested_context sample_nested_run)
        (sample_nested_frame 2 1))).1.nestDetected.above_avg_simo_count = 0 ∧
    (primary_events (detectAndDraw sample_host
        (run_frames sample_host sample_nested_context sample_nested_run)
        (sample_nested_frame 2 1))).1.detected.simo_count = 1 ∧
    (video_thread_callback sample_host
        (run_frames sample_host sample_nested_context sample_nested_run)
        (sample_nested_frame 2 1)).1.nest_detect_event = 1 ∧
    (video_thread_callback sample_host
        (run_frames sample_host sample_nested_context sample_nested_run)
        (sample_nested_frame 2 1)).1.nestDetected = ⟨1, 69, 0, 0, 202, 69, 2⟩ ∧
    (video_thread_callback sample_host
        (run_frames sample_host sample_nested_context sample_nested_run)
        (sample_nested_frame 2 1)).2 = [] := by
  decide

/-- C17, amended: when, after the tracker updates of a frame, the primary
streak count exceeds 20 (which makes the primary event active), a nested
detector is configured, the nested event is active and the nested
above-average streak is 0, the frame makes the nested event inactive, sends
exactly one nested stop and resets the nested tracker to all-zero; when the
primary streak count is at most 20 the nested evaluation does nothing. -/
theorem nested_stop_on_zero_streak (d : cv_context) :
    (d.nestedCascade = true → 20 < d.detected.simo_count → d.nest_detect_event ≠ 0 →
      d.nestDetected.above_avg_simo_count = 0 →
        (evaluate_events d).1.detect_event ≠ 0 ∧
        (evaluate_events d).1.nest_detect_event = 0 ∧
        (evaluate_events d).1.nestDetected = zero_stats ∧
        nested_notifications (evaluate_events d).2 = [disposition.stop]) ∧
    (¬ 20 < d.detected.simo_count → nested_events d = (d, [])) := by
  constructor
  · intro hn hs he ha
    obtain ⟨p1, p2, p3, _⟩ := primary_events_of_streak d hs
    have pf := primary_events_frame d
    have nf := nested_events_frame (primary_events d).1
    have hnest : nested_events (primary_events d).1 =
        ({ (primary_events d).1 with
            nestDetected := reset_stats (primary_events d).1.nestDetected
            nest_detect_event := 0 },
          [action.notify .nested .stop (primary_events d).1.nestDetected.simo_count
              (primary_events d).1.nestDetected.avg (primary_events d).1.nestDetected.last_score,
            action.execute_on "execute_on_cv_detect_off_nested"]) := by
      unfold nested_events
      simp only [pf.2.2.2.2.1, pf.2.2.2.2.2.2, p2, p3, hn, hs, ha]
      simp [he]
    have hev : evaluate_events d = ((nested_events (primary_events d).1).1,
        (primary_events d).2 ++ (nested_events (primary_events d).1).2) := rfl
    rw [hev, hnest]
    refine ⟨p1, rfl, rfl, ?_⟩
    rw [nested_notifications_append, primary_events_nested_notifications]
    simp [nested_notifications]
  · intro hs
    unfold nested_events
    simp [hs]

/-- The amended C17 at a context with primary streak count 21, an active
nested event and a nested above-average streak of 0. -/
theorem nested_stop_on_zero_streak_witness :
    (evaluate_events { sample_nested_context with
        detected := ⟨1, 21, 0, 0, 21, 21, 1⟩, detect_event := 1,
        nest_detect_event := 1 }).1.nest_detect_event = 0 ∧
    nested_notifications (evaluate_events { sample_nested_context with
        detected := ⟨1, 21, 0, 0, 21, 21, 1⟩, detect_event := 1,
        nest_detect_event := 1 }).2 = [disposition.stop] ∧
    nested_events sample_nested_context = (sample_nested_context, []) :=
  ⟨((nested_stop_on_zero_streak { sample_nested_context with
        detected := ⟨1, 21, 0, 0, 21, 21, 1⟩, detect_event := 1,
        nest_detect_event := 1 }).1 rfl (by decide) (by decide) rfl).2.1,
    ((nested_stop_on_zero_streak { sample_nested_context with
        detected := ⟨1, 21, 0, 0, 21, 21, 1⟩, detect_event := 1,
        nest_detect_event := 1 }).1 rfl (by decide) (by decide) rfl).2.2.2,
    (nested_stop_on_zero_streak sample_nested_context).2 (by decide)⟩

theorem nested_events_start_cases (e : cv_context) (h0 : e.nest_detect_event = 0)
    (h1 : (nested_events e).1.nest_detect_event ≠ 0) :
    e.nestedCascade = true ∧ 20 < e.detected.simo_count ∧
      20 < e.nestDetected.simo_count ∧
      e.nestDetected.avg < float_round e.nestDetected.last_score ∧
      5 < e.nestDetected.above_avg_simo_count ∧
      nested_notifications (nested_events e).2 = [disposition.start] := by
  unfold nested_events at h1 ⊢
  split_ifs at h1 ⊢ with a1 a2 a3 a4
  · simp only [Bool.and_eq_true, decide_eq_true_eq] at a1 a2
    exact ⟨a1.1, a1.2, a2.1.1, a2.1.2, a2.2, by simp [nested_notifications]⟩
  all_goals first
    | exact absurd h0 h1
    | exact absurd rfl h1

/-- C18: a frame takes the nested event from inactive to active only if, at
the time of the nested evaluation, a nested detector is configured, the
primary event is active (its streak count exceeds 20), and the nested tracker
has a streak count above 20, a last score above the average and an
above-average streak above 5; the frame then sends exactly one nested start.
So where one of these fails the nested event does not become active. -/
theorem nested_start_only_if (H : Host) (c : cv_context) (f : frame_input)
    (h0 : c.nest_detect_event = 0)
    (h1 : (video_thread_callback H c f).1.nest_detect_event ≠ 0) :
    (primary_events (detectAndDraw H c f)).1.nestedCascade = true ∧
    (primary_events (detectAndDraw H c f)).1.detect_event ≠ 0 ∧
    20 < (primary_events (detectAndDraw H c f)).1.detected.simo_count ∧
    20 < (primary_events (detectAndDraw H c f)).1.nestDetected.simo_count ∧
    (primary_events (detectAndDraw H c f)).1.nestDetected.avg <
      float_round (primary_events (detectAndDraw H c f)).1.nestDetected.last_score ∧
    5 < (primary_events (detectAndDraw H c f)).1.nestDetected.above_avg_simo_count ∧
    nested_notifications (video_thread_callback H c f).2 = [disposition.start] := by
  unfold video_thread_callback at h1 ⊢
  split_ifs at h1 ⊢ with a1 a2 a3
  · exact absurd h0 h1
  · exact absurd h0 h1
  · have hd : (detectAndDraw H c f).nest_detect_event = 0 := by
      rw [(detectAndDraw_frame H c f).2.2.2.2.1, h0]
    have he : (primary_events (detectAndDraw H c f)).1.nest_detect_event = 0 := by
      rw [(primary_events_frame _).2.2.2.2.2.2, hd]
    obtain ⟨n1, n2, n3, n4, n5, n6⟩ :=
      nested_events_start_cases (primary_events (detectAndDraw H c f)).1 he h1
    have hs := primary_events_streak_le _ n2
    refine ⟨n1, (primary_events_of_streak _ hs).1, n2, n3, n4, n5, ?_⟩
    simp only [evaluate_events, nested_notifications_append,
      primary_events_nested_notifications, n6, List.nil_append]
  · exact absurd h0 h1

set_option maxRecDepth 20000 in
/-- C18 at the frame of the sample run that starts the nested event. -/
theorem nested_start_only_if_witness :
    (run_frames sample_host sample_nested_context
      (sample_nested_run.take 21)).nest_detect_event = 0 ∧
    nested_notifications (video_thread_callback sample_host
      (run_frames sample_host sample_nested_context (sample_nested_run.take 21))
      (sample_nested_frame 3 20)).2 = [disposition.start] :=
  ⟨by decide,
    (nested_start_only_if sample_host
      (run_frames sample_host sample_nested_context (sample_nested_run.take 21))
      (sample_nested_frame 3 20) (by decide) (by decide)).2.2.2.2.2.2⟩

/-- C19, as stated, fails: for the box `(0, 0, 7, 7)` the nested detector gets
`(0, 4, 7, 4)`, since `cvRound (3.5) = 4` and not `7 / 2 = 3`; the bottom edge
`4 + 4 = 8` lies below the bottom edge `7` of the box. -/
theorem nested_region_leaves_box :
    nested_region ⟨0, 0, 7, 7⟩ = ⟨0, 4, 7, 4⟩ ∧
    (0 : Int) + 7 < (nested_region ⟨0, 0, 7, 7⟩).y + (nested_region ⟨0, 0, 7, 7⟩).height ∧
    (nested_region ⟨0, 0, 7, 7⟩).height ≠ 7 / 2 := by
  decide

/-- C19, amended: the region handed to the nested detector is
`(x, y + hh, w, hh)` with `hh = cvRound (h / 2)`, half the height rounded to
the nearest integer, a tie going to the even one.  For even `h` it is the
lower half and ends at the bottom edge `y + h`; for `h = 4 k + 1` it ends one
row above it, and for `h = 4 k + 3` one row below it. -/
theorem nested_region_rounds (r : Rect) :
    (nested_region r).x = r.x ∧ (nested_region r).width = r.width ∧
    (nested_region r).height = cvRound r.height 2 ∧
    (nested_region r).y = r.y + cvRound r.height 2 ∧
    (r.height % 2 = 0 →
      (nested_region r).height = r.height / 2 ∧
      (nested_region r).y + (nested_region r).height = r.y + r.height) ∧
    (r.height % 4 = 1 →
      (nested_region r).height = r.height / 2 ∧
      (nested_region r).y + (nested_region r).height = r.y + r.height - 1) ∧
    (r.height % 4 = 3 →
      (nested_region r).height = r.height / 2 + 1 ∧
      (nested_region r).y + (nested_region r).height = r.y + r.height + 1) := by
  refine ⟨rfl, rfl, rfl, rfl, ?_, ?_, ?_⟩
  · intro h
    have hc : cvRound r.height 2 = r.height / 2 := by
      unfold cvRound
      simp only []
      rw [if_pos (by omega)]
    have hh : (nested_region r).height = cvRound r.height 2 := rfl
    have hy : (nested_region r).y = r.y + cvRound r.height 2 := rfl
    rw [hh, hy, hc]
    omega
  · intro h
    have hc : cvRound r.height 2 = r.height / 2 := by
      unfold cvRound
      simp only []
      rw [if_neg (by omega), if_neg (by omega), if_pos (by omega)]
    have hh : (nested_region r).height = cvRound r.height 2 := rfl
    have hy : (nested_region r).y = r.y + cvRound r.height 2 := rfl
    rw [hh, hy, hc]
    omega
  · intro h
    have hc : cvRound r.height 2 = r.height / 2 + 1 := by
      unfold cvRound
      simp only []
      rw [if_neg (by omega), if_neg (by omega), if_neg (by omega)]
    have hh : (nested_region r).height = cvRound r.height 2 := rfl
    have hy : (nested_region r).y = r.y + cvRound r.height 2 := rfl
    rw [hh, hy, hc]
    omega

/-- The amended C19 at boxes of height 8, 5 and 7. -/
theorem nested_region_rounds_witness :
    (nested_region ⟨0, 0, 8, 8⟩).y + (nested_region ⟨0, 0, 8, 8⟩).height = 0 + 8 ∧
    (nested_region ⟨0, 0, 5, 5⟩).y + (nested_region ⟨0, 0, 5, 5⟩).height = 0 + 5 - 1 ∧
    (nested_region ⟨0, 0, 7, 7⟩).y + (nested_region ⟨0, 0, 7, 7⟩).height = 0 + 7 + 1 :=
  ⟨((nested_region_rounds ⟨0, 0, 8, 8⟩).2.2.2.2.1 (by decide)).2,
    ((nested_region_rounds ⟨0, 0, 5, 5⟩).2.2.2.2.2.1 (by decide)).2,
    ((nested_region_rounds ⟨0, 0, 7, 7⟩).2.2.2.2.2.2 (by decide)).2⟩

/-! ## Shape capacity -/

theorem detect_loop_shape (H : Host) (sc : Int) (objs : List (Rect × Nat)) :
    ∀ (c : cv_context) (j : Nat),
      (detect_loop H sc objs c).shape[j]? =
        match objs[j - c.shape_idx]? with
        | some (r, _) =>
          if c.shape_idx ≤ j ∧ j < MAX_SHAPES then c.shape[j]?.map (box_shape H sc r)
          else c.shape[j]?
        | none => c.shape[j]? := by
  induction objs with
  | nil => intro c j; simp [detect_loop]
  | cons o rest ih =>
    intro c j
    obtain ⟨r, nested⟩ := o
    by_cases h1 : MAX_SHAPES ≤ c.shape_idx
    · rw [detect_loop, if_pos h1]
      have : ¬ (c.shape_idx ≤ j ∧ j < MAX_SHAPES) := by omega
      split <;> simp [this]
    · have key : ∀ nd : detect_stats,
          (detect_loop H sc rest
            { c with
              shape := c.shape.set c.shape_idx
                (box_shape H sc r (c.shape.getD c.shape_idx zero_shape))
              shape_idx := c.shape_idx + 1
              nestDetected := nd }).shape[j]? =
          match ((r, nested) :: rest)[j - c.shape_idx]? with
          | some (r, _) =>
            if c.shape_idx ≤ j ∧ j < MAX_SHAPES then c.shape[j]?.map (box_shape H sc r)
            else c.shape[j]?
          | none => c.shape[j]? := by
        intro nd
        rw [ih]
        simp only []
        by_cases hj : j < c.shape_idx
        · have e1 : j - (c.shape_idx + 1) = 0 := by omega
          have e2 : j - c.shape_idx = 0 := by omega
          have n1 : ¬ (c.shape_idx + 1 ≤ j ∧ j < MAX_SHAPES) := by omega
          have n2 : ¬ (c.shape_idx ≤ j ∧ j < MAX_SHAPES) := by omega
          rw [e1, e2, List.getElem?_set_ne (by omega)]
          simp only [n1, n2, if_false, List.getElem?_cons_zero]
          split <;> rfl
        · by_cases hje : j = c.shape_idx
          · subst hje
            have e1 : c.shape_idx - (c.shape_idx + 1) = 0 := by omega
            have n1 : ¬ (c.shape_idx + 1 ≤ c.shape_idx ∧ c.shape_idx < MAX_SHAPES) := by omega
            have p2 : c.shape_idx ≤ c.shape_idx ∧ c.shape_idx < MAX_SHAPES := by omega
            rw [e1, Nat.sub_self, List.getElem?_cons_zero]
            simp only []
            rw [if_pos p2]
            have hset : (c.shape.set c.shape_idx
                (box_shape H sc r (c.shape.getD c.shape_idx zero_shape)))[c.shape_idx]? =
                c.shape[c.shape_idx]?.map (box_shape H sc r) := by
              rw [List.getElem?_set, if_pos rfl]
              by_cases hl : c.shape_idx < c.shape.length
              · simp [hl, List.getD_eq_getElem?_getD, List.getElem?_eq_getElem hl]
              · simp [hl, List.getElem?_eq_none (Nat.le_of_not_lt hl)]
            rcases rest[0]? with _ | ⟨r', n'⟩
            · exact hset
            · simp only []
              rw [if_neg n1]
              exact hset
          · obtain ⟨d, hd⟩ : ∃ d, j - c.shape_idx = d + 1 := ⟨j - c.shape_idx - 1, by omega⟩
            have e1 : j - (c.shape_idx + 1) = d := by omega
            rw [e1, hd, List.getElem?_cons_succ, List.getElem?_set_ne (by omega)]
            have q : (c.shape_idx + 1 ≤ j ∧ j < MAX_SHAPES) ↔
                (c.shape_idx ≤ j ∧ j < MAX_SHAPES) := by omega
            simp only [q]
      by_cases h2 : (!c.nestedCascade || c.nestedEmpty) = true
      · rw [detect_loop, if_neg h1]
        simp only [h2, if_true]
        exact key c.nestDetected
      · rw [detect_loop, if_neg h1]
        simp only [h2]
        exact key _

theorem detect_loop_shape_idx (H : Host) (sc : Int) (objs : List (Rect × Nat)) :
    ∀ c : cv_context, c.shape_idx ≤ MAX_SHAPES →
      (detect_loop H sc objs c).shape_idx = min (c.shape_idx + objs.length) MAX_SHAPES := by
  induction objs with
  | nil => intro c h; simp [detect_loop]; omega
  | cons o rest ih =>
    intro c h
    obtain ⟨r, nested⟩ := o
    by_cases h1 : MAX_SHAPES ≤ c.shape_idx
    · rw [detect_loop, if_pos h1]
      simp only [List.length_cons]
      omega
    · by_cases h2 : (!c.nestedCascade || c.nestedEmpty) = true
      · rw [detect_loop, if_neg h1]
        simp only [h2, if_true]
        rw [ih _ (by show c.shape_idx + 1 ≤ MAX_SHAPES; omega)]
        simp only [List.length_cons]
        omega
      · rw [detect_loop, if_neg h1]
        simp only [h2, Bool.false_eq_true, if_false]
        rw [ih _ (by show c.shape_idx + 1 ≤ MAX_SHAPES; omega)]
        simp only [List.length_cons]
        omega

theorem primary_events_shape_of_no_miss (d : cv_context)
    (h : d.detected.simo_miss_count < 20) : (primary_events d).1.shape = d.shape := by
  unfold primary_events
  split_ifs <;> first | rfl | omega

theorem detectAndDraw_processed (H : Host) (c : cv_context) (f : frame_input)
    (hk : cadence_skips c = false) :
    detectAndDraw H c f =
      detect_loop H (scale2 f.width) f.objs
        { c with
          skip_count := 0
          detected := parse_stats c.detected (u32 f.objs.length) (u64 c.skip)
          shape_idx := 0 } := by
  unfold detectAndDraw
  rw [if_neg (by simp [hk])]

/-- C15: a processed frame whose detector returns `n` boxes leaves a shape
count of `min n 32`.  If the count passed to the tracker is not zero, entry
`j` of the shape array is, for `j < min n 32`, the shape of the `j`-th box
written over the old entry, and is the old entry for every other `j`.  The
loop never writes an entry of index 32 or more. -/
theorem shape_capacity (H : Host) (c : cv_context) (f : frame_input)
    (hc : c.cascade = true) (hl : f.live) (hk : cadence_skips c = false) :
    (video_thread_callback H c f).1.shape_idx = min f.objs.length 32 ∧
    (u32 f.objs.length ≠ 0 → ∀ j : Nat,
      (video_thread_callback H c f).1.shape[j]? =
        match (f.objs[j]? : Option (Rect × Nat)) with
        | some (r, _) =>
          if j < 32 then c.shape[j]?.map (box_shape H (scale2 f.width) r) else c.shape[j]?
        | none => c.shape[j]?) ∧
    (∀ j : Nat, 32 ≤ j → (detectAndDraw H c f).shape[j]? = c.shape[j]?) := by
  have hM : MAX_SHAPES = 32 := rfl
  have hloop : ∀ j : Nat, (detectAndDraw H c f).shape[j]? =
      match (f.objs[j]? : Option (Rect × Nat)) with
      | some (r, _) =>
        if j < 32 then c.shape[j]?.map (box_shape H (scale2 f.width) r) else c.shape[j]?
      | none => c.shape[j]? := by
    intro j
    rw [detectAndDraw_processed H c f hk, detect_loop_shape]
    simp only [Nat.sub_zero, Nat.zero_le, true_and, hM]
  have hidx : (detectAndDraw H c f).shape_idx = min f.objs.length 32 := by
    rw [detectAndDraw_processed H c f hk, detect_loop_shape_idx _ _ _ _ (by simp)]
    simp [hM]
  rw [video_thread_callback_live H c f hc hl]
  have hn := nested_events_frame (primary_events (detectAndDraw H c f)).1
  have hp := primary_events_frame (detectAndDraw H c f)
  refine ⟨?_, ?_, ?_⟩
  · show (nested_events (primary_events (detectAndDraw H c f)).1).1.shape_idx = _
    rw [hn.2.2.2.2.2.2.1, hp.2.2.2.1, hidx]
  · intro hz j
    have hmiss : (detectAndDraw H c f).detected.simo_miss_count < 20 := by
      rw [detectAndDraw_detected H c f hk, parse_stats_simo_miss_count, if_pos hz]
      decide
    show (nested_events (primary_events (detectAndDraw H c f)).1).1.shape[j]? = _
    rw [hn.2.2.2.2.2.1, primary_events_shape_of_no_miss _ hmiss, hloop j]
  · intro j hj
    rw [hloop j]
    split
    · rw [if_neg (by omega)]
    · rfl

/-- C15 at a sample frame of 40 boxes: the shape count is 32 and entry 31
holds the shape of a box. -/
theorem shape_capacity_witness :
    (video_thread_callback sample_host (sample_context 1) (sample_frame 40)).1.shape_idx =
      min (sample_frame 40).objs.length 32 ∧
    (video_thread_callback sample_host (sample_context 1) (sample_frame 40)).1.shape[31]? =
      (sample_context 1).shape[31]?.map
        (box_shape sample_host (scale2 (sample_frame 40).width) ⟨100, 100, 50, 50⟩) := by
  have h := shape_capacity sample_host (sample_context 1) (sample_frame 40) rfl ⟨rfl, rfl⟩
    (by decide)
  exact ⟨h.1, h.2.1 (by decide) 31⟩

/-! ## Binary64 rounding of the aspect ratio -/

theorem round53_cases (N D : Nat) :
    (round53 N D = N / (D * 2 ^ (Nat.log2 (N / D) - 52)) * 2 ^ (Nat.log2 (N / D) - 52)) ∨
    (round53 N D = (N / (D * 2 ^ (Nat.log2 (N / D) - 52)) + 1) * 2 ^ (Nat.log2 (N / D) - 52) ∧
      0 < N % (D * 2 ^ (Nat.log2 (N / D) - 52))) := by
  unfold round53
  simp only []
  split_ifs with h1 h2 h3
  · left; rfl
  · right; exact ⟨rfl, by omega⟩
  · left; rfl
  · right
    refine ⟨rfl, ?_⟩
    by_contra h0
    have hr : N % (D * 2 ^ (Nat.log2 (N / D) - 52)) = 0 := by omega
    rw [hr] at h1
    exact h1 (by
      have : 0 < D * 2 ^ (Nat.log2 (N / D) - 52) := by
        by_contra hz
        have hz' : D * 2 ^ (Nat.log2 (N / D) - 52) = 0 := by omega
        rw [hz'] at h3
        simp at h3
      omega)

theorem round53_exponent (N D : Nat) (hbig : 2 ^ 52 ≤ N / D) :
    2 ^ (52 + (Nat.log2 (N / D) - 52)) ≤ N / D ∧
    2 ^ 52 ≤ N / (D * 2 ^ (Nat.log2 (N / D) - 52)) := by
  have hne : N / D ≠ 0 := by
    have : 0 < 2 ^ 52 := by positivity
    omega
  have hL : 52 ≤ Nat.log2 (N / D) := (Nat.le_log2 hne).mpr hbig
  have hs : 52 + (Nat.log2 (N / D) - 52) = Nat.log2 (N / D) := by omega
  have h1 : 2 ^ (52 + (Nat.log2 (N / D) - 52)) ≤ N / D := by
    rw [hs]; exact Nat.log2_self_le hne
  refine ⟨h1, ?_⟩
  rw [← Nat.div_div_eq_div_mul, Nat.le_div_iff_mul_le (by positivity), ← pow_add]
  exact h1

/-- A number `k * 2 ^ t` with `k < 2 ^ 53` that is at most `N / D` is at most
the rounded value. -/
theorem round53_lower (N D k t : Nat) (hD : 0 < D) (hbig : 2 ^ 52 ≤ N / D)
    (hk : k < 2 ^ 53) (hle : k * 2 ^ t * D ≤ N) : k * 2 ^ t ≤ round53 N D := by
  obtain ⟨e1, e2⟩ := round53_exponent N D hbig
  generalize hs : Nat.log2 (N / D) - 52 = s at e1 e2
  have hq : N / (D * 2 ^ s) * 2 ^ s ≤ round53 N D := by
    rcases round53_cases N D with h | ⟨h, _⟩
    · rw [h, hs]
    · rw [h, hs]; exact Nat.mul_le_mul_right _ (Nat.le_succ _)
  refine le_trans ?_ hq
  by_cases hts : s ≤ t
  · obtain ⟨u, rfl⟩ : ∃ u, t = s + u := ⟨t - s, by omega⟩
    have : k * 2 ^ u ≤ N / (D * 2 ^ s) := by
      rw [Nat.le_div_iff_mul_le (by positivity)]
      calc k * 2 ^ u * (D * 2 ^ s) = k * 2 ^ (s + u) * D := by rw [pow_add]; ring
        _ ≤ N := hle
    calc k * 2 ^ (s + u) = k * 2 ^ u * 2 ^ s := by rw [pow_add]; ring
      _ ≤ N / (D * 2 ^ s) * 2 ^ s := Nat.mul_le_mul_right _ this
  · have h1 : k * 2 ^ t ≤ 2 ^ 53 * 2 ^ t := Nat.mul_le_mul_right _ (le_of_lt hk)
    have h2 : 2 ^ 53 * 2 ^ t ≤ 2 ^ 52 * 2 ^ s := by
      rw [← pow_add, ← pow_add]
      exact Nat.pow_le_pow_right (by decide) (by omega)
    exact le_trans h1 (le_trans h2 (Nat.mul_le_mul_right _ e2))

/-- A number `k * 2 ^ t` with `k < 2 ^ 53` that is at least `N / D` is at
least the rounded value. -/
theorem round53_upper (N D k t : Nat) (hD : 0 < D) (hbig : 2 ^ 52 ≤ N / D)
    (hk : k < 2 ^ 53) (hge : N ≤ k * 2 ^ t * D) : round53 N D ≤ k * 2 ^ t := by
  obtain ⟨e1, e2⟩ := round53_exponent N D hbig
  generalize hs : Nat.log2 (N / D) - 52 = s at e1 e2
  have hP : 0 < D * 2 ^ s := by positivity
  by_cases hts : s ≤ t
  · obtain ⟨u, rfl⟩ : ∃ u, t = s + u := ⟨t - s, by omega⟩
    have hV : k * 2 ^ (s + u) = k * 2 ^ u * 2 ^ s := by rw [pow_add]; ring
    have hN : N ≤ k * 2 ^ u * (D * 2 ^ s) := by
      calc N ≤ k * 2 ^ (s + u) * D := hge
        _ = k * 2 ^ u * (D * 2 ^ s) := by rw [pow_add]; ring
    have hdm := Nat.div_add_mod N (D * 2 ^ s)
    rw [hV]
    rcases round53_cases N D with h | ⟨h, hr⟩
    · rw [h, hs]
      apply Nat.mul_le_mul_right
      calc N / (D * 2 ^ s) ≤ k * 2 ^ u * (D * 2 ^ s) / (D * 2 ^ s) := Nat.div_le_div_right hN
        _ = k * 2 ^ u := Nat.mul_div_cancel _ hP
    · rw [h, hs]
      rw [hs] at hr
      apply Nat.mul_le_mul_right
      by_contra hlt
      have hle' : k * 2 ^ u ≤ N / (D * 2 ^ s) := by omega
      have : k * 2 ^ u * (D * 2 ^ s) ≤ N / (D * 2 ^ s) * (D * 2 ^ s) :=
        Nat.mul_le_mul_right _ hle'
      have h3 : N / (D * 2 ^ s) * (D * 2 ^ s) + N % (D * 2 ^ s) = N := by
        rw [Nat.mul_comm]; exact hdm
      omega
  · exfalso
    have h1 : k * 2 ^ t < 2 ^ 53 * 2 ^ t := Nat.mul_lt_mul_of_pos_right hk (by positivity)
    have h2 : 2 ^ 53 * 2 ^ t ≤ 2 ^ (52 + s) := by
      rw [← pow_add]
      exact Nat.pow_le_pow_right (by decide) (by omega)
    have h3 : k * 2 ^ t < N / D := lt_of_lt_of_le h1 (le_trans h2 e1)
    have h4 : (k * 2 ^ t + 1) * D ≤ N := (Nat.le_div_iff_mul_le hD).mp h3
    have h5 : k * 2 ^ t * D < (k * 2 ^ t + 1) * D := Nat.mul_lt_mul_of_pos_right (by omega) hD
    omega

theorem round53_scale (N D c : Nat) (hc : 0 < c) : round53 (c * N) (c * D) = round53 N D := by
  unfold round53
  simp only [Nat.mul_div_mul_left _ _ hc, Nat.mul_assoc, Nat.mul_mod_mul_left]
  have e : ∀ a b : Nat, (2 * (c * a) < c * b ↔ 2 * a < b) ∧ (c * b < 2 * (c * a) ↔ b < 2 * a) := by
    intro a b
    constructor
    · rw [show 2 * (c * a) = c * (2 * a) by ring]
      exact Nat.mul_lt_mul_left hc
    · rw [show 2 * (c * a) = c * (2 * a) by ring]
      exact Nat.mul_lt_mul_left hc
  simp only [(e _ _).1, (e _ _).2]

theorem double_div_big (w h : Nat) (hw : 0 < w) (hh : 0 < h) (hh' : h < 2 ^ 31) :
    2 ^ 52 ≤ w * 2 ^ 84 / h := by
  rw [Nat.le_div_iff_mul_le hh]
  norm_num at hh' ⊢
  nlinarith

theorem double_div_three_quarters : double_div 3 4 = 3 * 2 ^ 82 := by
  have hbig : 2 ^ 52 ≤ 3 * 2 ^ 84 / 4 := by norm_num
  apply le_antisymm
  · exact round53_upper (3 * 2 ^ 84) 4 3 82 (by decide) hbig (by norm_num) (by norm_num)
  · exact round53_lower (3 * 2 ^ 84) 4 3 82 (by decide) hbig (by norm_num) (by norm_num)

/-- For operands below `2 ^ 31` the two comparisons of line 364, made on
rounded binary64 numbers, are the comparisons of the exact fractions. -/
theorem aspect_test_exact (w h : Nat) (hw : 0 < w) (hw' : w < 2 ^ 31) (hh : 0 < h)
    (hh' : h < 2 ^ 31) :
    (double_div 3 4 < double_div w h ↔ 3 * h < 4 * w) ∧
    (double_div w h < double_div 13 10 ↔ 10 * w < 13 * h) := by
  have hbig := double_div_big w h hw hh hh'
  have hbig13 : 2 ^ 52 ≤ 13 * 2 ^ 84 / 10 := by norm_num
  norm_num at hw' hh'
  constructor
  · rw [double_div_three_quarters]
    constructor
    · intro hlt
      by_contra hn
      have : double_div w h ≤ 3 * 2 ^ 82 :=
        round53_upper (w * 2 ^ 84) h 3 82 hh hbig (by norm_num) (by norm_num; omega)
      omega
    · intro hlt
      have h1 : (3 * 2 ^ 51 + 1) * 2 ^ 31 ≤ double_div w h :=
        round53_lower (w * 2 ^ 84) h (3 * 2 ^ 51 + 1) 31 hh hbig (by norm_num)
          (by norm_num; nlinarith)
      have h2 : 3 * 2 ^ 82 < (3 * 2 ^ 51 + 1) * 2 ^ 31 := by norm_num
      omega
  · constructor
    · intro hlt
      by_contra hn
      have hge : 13 * h ≤ 10 * w := by omega
      rcases Nat.lt_or_ge (13 * h) (10 * w) with hgt | hle
      · have h1 : 5854679515581645 * 2 ^ 32 ≤ double_div w h :=
          round53_lower (w * 2 ^ 84) h 5854679515581645 32 hh hbig (by norm_num)
            (by norm_num; nlinarith)
        have h2 : double_div 13 10 ≤ 5854679515581645 * 2 ^ 32 :=
          round53_upper (13 * 2 ^ 84) 10 5854679515581645 32 (by decide) hbig13 (by norm_num)
            (by norm_num)
        omega
      · have he : 13 * h = 10 * w := by omega
        obtain ⟨c, hc⟩ : 10 ∣ h := by omega
        have hw13 : w = 13 * c := by omega
        have hc0 : 0 < c := by omega
        have : double_div w h = double_div 13 10 := by
          unfold double_div
          rw [hw13, hc, show 13 * c * 2 ^ 84 = c * (13 * 2 ^ 84) by ring,
            show 10 * c = c * 10 by ring]
          exact round53_scale _ _ c hc0
        omega
    · intro hlt
      have h1 : double_div w h ≤ 5854679515581643 * 2 ^ 32 :=
        round53_upper (w * 2 ^ 84) h 5854679515581643 32 hh hbig (by norm_num)
          (by norm_num; nlinarith)
      have h2 : 5854679515581644 * 2 ^ 32 ≤ double_div 13 10 :=
        round53_lower (13 * 2 ^ 84) 10 5854679515581644 32 (by decide) hbig13 (by norm_num)
          (by norm_num)
      have h3 : 5854679515581643 * 2 ^ 32 < 5854679515581644 * 2 ^ 32 := by norm_num
      omega

theorem is_circular_eq_double (r : Rect) (hw : r.width.natAbs < 2 ^ 31)
    (hh : r.height.natAbs < 2 ^ 31) : is_circular r = is_circular_double r := by
  unfold is_circular is_circular_double
  by_cases h0 : r.height = 0
  · simp [h0]
  · by_cases hs : 0 < r.width * r.height
    · have hwn : 0 < r.width.natAbs := by
        rw [Int.natAbs_pos]; rintro e; rw [e] at hs; simp at hs
      have hhn : 0 < r.height.natAbs := Int.natAbs_pos.mpr h0
      obtain ⟨e1, e2⟩ := aspect_test_exact r.width.natAbs r.height.natAbs hwn hw hhn hh
      have d1 : decide (double_div 3 4 < double_div r.width.natAbs r.height.natAbs) =
          decide (3 * r.height.natAbs < 4 * r.width.natAbs) := by
        simp only [e1]
      have d2 : decide (double_div r.width.natAbs r.height.natAbs < double_div 13 10) =
          decide (10 * r.width.natAbs < 13 * r.height.natAbs) := by
        simp only [e2]
      rw [d1, d2]
      rcases lt_or_gt_of_ne h0 with hneg | hpos
      · have hwneg : r.width < 0 := by
          by_contra hc
          have : r.width * r.height ≤ 0 :=
            Int.mul_nonpos_of_nonneg_of_nonpos (by omega) (by omega)
          omega
        have a1 : (3 * r.height.natAbs < 4 * r.width.natAbs) ↔ 4 * r.width < 3 * r.height := by
          omega
        have a2 : (10 * r.width.natAbs < 13 * r.height.natAbs) ↔
            13 * r.height < 10 * r.width := by omega
        have n1 : ¬ (0 < r.height) := by omega
        simp [h0, hs, hneg, n1, a1, a2]
      · have hwpos : 0 < r.width := by
          by_contra hc
          have : r.width * r.height ≤ 0 :=
            Int.mul_nonpos_of_nonpos_of_nonneg (by omega) (by omega)
          omega
        have a1 : (3 * r.height.natAbs < 4 * r.width.natAbs) ↔ 3 * r.height < 4 * r.width := by
          omega
        have a2 : (10 * r.width.natAbs < 13 * r.height.natAbs) ↔
            10 * r.width < 13 * r.height := by omega
        have n1 : ¬ (r.height < 0) := by omega
        simp [h0, hs, hpos, n1, a1, a2]
    · have f1 : ¬ (0 < r.height ∧ 3 * r.height < 4 * r.width) := by
        rintro ⟨p1, p2⟩
        exact hs (Int.mul_pos (by omega) p1)
      have f2 : ¬ (r.height < 0 ∧ 4 * r.width < 3 * r.height) := by
        rintro ⟨p1, p2⟩
        exact hs (Int.mul_pos_of_neg_of_neg (by omega) p1)
      have g1 : (decide (0 < r.height) && decide (3 * r.height < 4 * r.width)) = false := by
        simpa using f1
      have g2 : (decide (r.height < 0) && decide (4 * r.width < 3 * r.height)) = false := by
        simpa using f2
      simp [hs, g1, g2]

/-- C14: a box of width `w` and height `h` (positive, below `2 ^ 31`) passes
the binary64 test `0.75 < (double) w / h && (double) w / h < 1.3` of the code
exactly when `3 h < 4 w` and `10 w < 13 h`; the rounding of the quotient and
of the literal `1.3` never changes the outcome, and the integer test used in
the pipeline is this test. -/
theorem circular_iff_strict_ratio (r : Rect) (hw : 0 < r.width) (hw' : r.width < 2 ^ 31)
    (hh : 0 < r.height) (hh' : r.height < 2 ^ 31) :
    (is_circular_double r = true ↔
      (3 * r.height < 4 * r.width ∧ 10 * r.width < 13 * r.height)) ∧
    is_circular r = is_circular_double r := by
  have e := is_circular_eq_double r (by omega) (by omega)
  refine ⟨?_, e⟩
  rw [← e]
  unfold is_circular
  have n1 : ¬ (r.height < 0) := by omega
  simp [hh, n1]

/-- C14 at the two boundary boxes and at a square: `30 x 40` (ratio 0.75) and
`26 x 20` (ratio 1.3) are rectangular, `50 x 50` is circular. -/
theorem circular_iff_strict_ratio_witness :
    is_circular_double ⟨0, 0, 30, 40⟩ = false ∧ is_circular ⟨0, 0, 30, 40⟩ = false ∧
    is_circular_double ⟨0, 0, 26, 20⟩ = false ∧ is_circular ⟨0, 0, 26, 20⟩ = false ∧
    is_circular_double ⟨0, 0, 50, 50⟩ = true := by
  have h1 := circular_iff_strict_ratio ⟨0, 0, 30, 40⟩ (by decide) (by decide) (by decide)
    (by decide)
  have h2 := circular_iff_strict_ratio ⟨0, 0, 26, 20⟩ (by decide) (by decide) (by decide)
    (by decide)
  have h3 := circular_iff_strict_ratio ⟨0, 0, 50, 50⟩ (by decide) (by decide) (by decide)
    (by decide)
  have f1 : is_circular_double ⟨0, 0, 30, 40⟩ = false := by
    rw [Bool.eq_false_iff]; intro h; exact absurd (h1.1.mp h) (by decide)
  have f2 : is_circular_double ⟨0, 0, 26, 20⟩ = false := by
    rw [Bool.eq_false_iff]; intro h; exact absurd (h2.1.mp h) (by decide)
  exact ⟨f1, h1.2.trans f1, f2, h2.2.trans f2, h3.1.mpr (by decide)⟩

/-! ## Overlay compositor: debug output and placement -/

theorem float_round_example : float_round 16777217 = 16777216 := by
  have h : (16777217 : Nat) ≠ 0 := by decide
  have hl : Nat.log2 16777217 = 24 := by
    apply le_antisymm
    · have := (Nat.log2_lt h (k := 25)).mpr (by norm_num)
      omega
    · exact (Nat.le_log2 h).mpr (by norm_num)
  unfold float_round
  rw [hl]
  norm_num

/-- Below 60 iterations an update leaves the above-average streak alone. -/
theorem parse_stats_above_of_lt (s : detect_stats) (size skip : Nat) (h : s.itr < 60) :
    (parse_stats s size skip).above_avg_simo_count = s.above_avg_simo_count := by
  have h5 : ¬ 500 ≤ s.itr := by omega
  have h6 : ¬ 60 ≤ s.itr := by omega
  unfold parse_stats
  simp only [h5, h6, if_false]
  split_ifs <;> rfl

/-- C22, as stated, fails.  A tracker whose sum has grown to 16777217 (zero
updates never clear the sum) receives a zero update: the iteration count is
1, the integer quotient is 16777217, and the stored average is 16777216,
since the `float` field cannot hold `2 ^ 24 + 1`. -/
theorem average_not_truncated_quotient :
    (parse_stats ⟨3, 40, 0, 0, 16777217, 100, 167772⟩ 0 1).sum = 16777217 ∧
    (parse_stats ⟨3, 40, 0, 0, 16777217, 100, 167772⟩ 0 1).itr = 1 ∧
    (parse_stats ⟨3, 40, 0, 0, 16777217, 100, 167772⟩ 0 1).sum /
      (parse_stats ⟨3, 40, 0, 0, 16777217, 100, 167772⟩ 0 1).itr = 16777217 ∧
    (parse_stats ⟨3, 40, 0, 0, 16777217, 100, 167772⟩ 0 1).avg = 16777216 := by
  have hs : (parse_stats ⟨3, 40, 0, 0, 16777217, 100, 167772⟩ 0 1).sum = 16777217 := by
    rw [parse_stats_sum]; decide
  have hi : (parse_stats ⟨3, 40, 0, 0, 16777217, 100, 167772⟩ 0 1).itr = 1 := by
    rw [parse_stats_itr]; decide
  refine ⟨hs, hi, by rw [hs, hi], ?_⟩
  rw [parse_stats_avg, hs, hi]
  exact float_round_example

/-- C22, amended: after every update the iteration count is at least 1, and
the average is the integer quotient of sum by iterations converted to
`float`: it equals the truncated quotient whenever that quotient is below
`2 ^ 24`, and is the nearest `float` otherwise.  It is never the exact
fraction. -/
theorem average_is_rounded_quotient (s : detect_stats) (size skip : Nat) :
    1 ≤ (parse_stats s size skip).itr ∧
    (parse_stats s size skip).avg =
      float_round ((parse_stats s size skip).sum / (parse_stats s size skip).itr) ∧
    ((parse_stats s size skip).sum / (parse_stats s size skip).itr < 2 ^ 24 →
      (parse_stats s size skip).avg =
        (parse_stats s size skip).sum / (parse_stats s size skip).itr) := by
  refine ⟨(parse_stats_itr_range s size skip).1, parse_stats_avg s size skip, ?_⟩
  intro h
  rw [parse_stats_avg, float_round_of_lt h]

/-- The amended C22 at a tracker with sum 4 after 1 iteration and an update
of size 3: sum 7 over 2 iterations gives average 3. -/
theorem average_is_rounded_quotient_witness :
    (parse_stats ⟨4, 1, 0, 0, 4, 1, 4⟩ 3 1).sum = 7 ∧
    (parse_stats ⟨4, 1, 0, 0, 4, 1, 4⟩ 3 1).itr = 2 ∧
    (parse_stats ⟨4, 1, 0, 0, 4, 1, 4⟩ 3 1).avg = 3 :=
  ⟨by decide, by decide,
    ((average_is_rounded_quotient ⟨4, 1, 0, 0, 4, 1, 4⟩ 3 1).2.2 (by decide)).trans
      (by decide)⟩

/-- After `k` updates of the all-zero tracker the iteration count is at most
`k`, and while `k` is at most 60 the above-average streak is 0. -/
theorem warm_up_run (us : List (Nat × Nat)) :
    (run_stats zero_stats us).itr ≤ us.length ∧
    (us.length ≤ 60 → (run_stats zero_stats us).above_avg_simo_count = 0) := by
  induction us using List.reverseRecOn with
  | nil => exact ⟨Nat.le_refl 0, fun _ => rfl⟩
  | append_singleton us u ih =>
    rw [run_stats_snoc, List.length_append, List.length_singleton]
    constructor
    · rw [parse_stats_itr]
      split_ifs <;> omega
    · intro hl
      rw [parse_stats_above_of_lt _ _ _ (by omega)]
      exact ih.2 (by omega)

/-- C25: starting from the all-zero tracker, after any sequence of at most 60
updates, of any sizes and weights, the above-average streak is 0; so a
context whose nested tracker is in such a state sends no nested start, and a
nested event that is inactive stays inactive: the nested event cannot become
active before the 61st update of the nested tracker after a reset. -/
theorem nested_start_after_warm_up (us : List (Nat × Nat)) (hlen : us.length ≤ 60) :
    (run_stats zero_stats us).above_avg_simo_count = 0 ∧
    ∀ c : cv_context, c.nestDetected = run_stats zero_stats us → c.nest_detect_event = 0 →
      (nested_events c).1.nest_detect_event = 0 ∧
      nested_notifications (nested_events c).2 = [] := by
  have h0 := (warm_up_run us).2 hlen
  refine ⟨h0, ?_⟩
  intro c hc he
  have ha : c.nestDetected.above_avg_simo_count = 0 := by rw [hc]; exact h0
  unfold nested_events
  simp only [ha, he]
  split_ifs <;> simp_all [nested_notifications]

/-- C25 at 60 updates of size 9 and weight 7, in a context whose primary
streak count is 21. -/
theorem nested_start_after_warm_up_witness :
    (run_stats zero_stats (List.replicate 60 (9, 7))).above_avg_simo_count = 0 ∧
    (nested_events { sample_nested_context with
        detected := ⟨1, 21, 0, 0, 21, 21, 1⟩
        nestDetected := run_stats zero_stats (List.replicate 60 (9, 7)) }).1.nest_detect_event
      = 0 :=
  ⟨(nested_start_after_warm_up (List.replicate 60 (9, 7)) (by simp)).1,
    ((nested_start_after_warm_up (List.replicate 60 (9, 7)) (by simp)).2
      { sample_nested_context with
        detected := ⟨1, 21, 0, 0, 21, 21, 1⟩
        nestDetected := run_stats zero_stats (List.replicate 60 (9, 7)) } rfl rfl).1⟩

/-! ## Frames without a box and the primary stop -/

/-- What the primary evaluation does when it sends a stop, and what it leaves
alone when it does not. -/
theorem primary_events_stop_cases (d : cv_context) :
    (primary_notifications (primary_events d).2 = [disposition.stop] →
      (primary_events d).1.shape = List.replicate MAX_SHAPES zero_shape ∧
      (primary_events d).1.detected = zero_stats ∧
      (primary_events d).1.nestDetected = zero_stats ∧
      (primary_events d).1.detect_event = 0 ∧ d.detect_event ≠ 0) ∧
    (primary_notifications (primary_events d).2 ≠ [disposition.stop] →
      (primary_events d).1.shape = d.shape) := by
  unfold primary_events
  split_ifs with h1 h2 h3 h4
  all_goals simp_all [primary_notifications, reset_stats]

/-- A processed frame without a box: the context handed to the event
evaluation. -/
theorem detectAndDraw_no_box (H : Host) (c : cv_context) (f : frame_input)
    (hk : cadence_skips c = false) (ho : f.objs = []) :
    detectAndDraw H c f =
      { c with
        skip_count := 0
        detected := parse_stats c.detected 0 (u64 c.skip)
        shape_idx := 0 } := by
  rw [detectAndDraw_processed H c f hk, ho]
  rfl

/-- C23: a processed frame whose detector returns no box sets the shape count
to 0.  Unless the frame sends the primary stop, all entries of the shape
array, entry 0 included, are what they were before the frame; when it sends
the primary stop the array is zeroed. -/
theorem zero_boxes_keep_shapes (H : Host) (c : cv_context) (f : frame_input)
    (hc : c.cascade = true) (hl : f.live) (hk : cadence_skips c = false)
    (ho : f.objs = []) :
    (video_thread_callback H c f).1.shape_idx = 0 ∧
    (primary_notifications (video_thread_callback H c f).2 ≠ [disposition.stop] →
      (video_thread_callback H c f).1.shape = c.shape) ∧
    (primary_notifications (video_thread_callback H c f).2 = [disposition.stop] →
      (video_thread_callback H c f).1.shape = List.replicate MAX_SHAPES zero_shape) := by
  have hn := nested_events_frame (primary_events (detectAndDraw H c f)).1
  have hp := primary_events_frame (detectAndDraw H c f)
  have hs := primary_events_stop_cases (detectAndDraw H c f)
  have hd := detectAndDraw_no_box H c f hk ho
  have hnote : primary_notifications (video_thread_callback H c f).2 =
      primary_notifications (primary_events (detectAndDraw H c f)).2 := by
    rw [video_thread_callback_live H c f hc hl]
    simp only [evaluate_events, primary_notifications_append, hn.2.2.2.2.2.2.2.2.2,
      List.append_nil]
  have hshape : (video_thread_callback H c f).1.shape =
      (primary_events (detectAndDraw H c f)).1.shape := by
    rw [video_thread_callback_live H c f hc hl]
    exact hn.2.2.2.2.2.1
  have hidx : (video_thread_callback H c f).1.shape_idx = (detectAndDraw H c f).shape_idx := by
    rw [video_thread_callback_live H c f hc hl]
    exact hn.2.2.2.2.2.2.1.trans hp.2.2.2.1
  refine ⟨?_, ?_, ?_⟩
  · rw [hidx, hd]
  · intro h
    rw [hnote] at h
    rw [hshape, hs.2 h, hd]
  · intro h
    rw [hnote] at h
    rw [hshape, (hs.1 h).1]

/-- C23 at a context that tracks a face in entry 0 and has an active primary
event: a frame without a box sets the count to 0 and leaves the entry in
place. -/
theorem zero_boxes_keep_shapes_witness :
    (video_thread_callback sample_host sample_tracking_context (sample_frame 0)).1.shape_idx
      = 0 ∧
    (video_thread_callback sample_host sample_tracking_context (sample_frame 0)).1.shape =
      (List.replicate MAX_SHAPES zero_shape).set 0 ⟨100, 100, 150, 150, 50, 50, 125, 125, 0⟩ :=
  ⟨(zero_boxes_keep_shapes sample_host sample_tracking_context (sample_frame 0) rfl
      ⟨rfl, rfl⟩ (by decide) rfl).1,
    (zero_boxes_keep_shapes sample_host sample_tracking_context (sample_frame 0) rfl
      ⟨rfl, rfl⟩ (by decide) rfl).2.1 (by decide)⟩

/-- The nested evaluation does nothing on a context whose primary streak
count is at most 20. -/
theorem nested_events_of_no_streak (d : cv_context) (h : ¬ 20 < d.detected.simo_count) :
    nested_events d = (d, []) := by
  unfold nested_events
  simp [h]

set_option maxRecDepth 100000 in
/-- C24: a frame that sends the primary stop makes the primary event
inactive, leaves the nested event flag as it was, sends no nested
notification, and resets the nested tracker.  So the sample run, which starts
both events, followed by 19 more frames without a box, ends with the nested
event active and the primary event inactive. -/
theorem primary_stop_keeps_nested_event :
    (∀ (H : Host) (c : cv_context) (f : frame_input),
      primary_notifications (video_thread_callback H c f).2 = [disposition.stop] →
        c.detect_event ≠ 0 ∧
        (video_thread_callback H c f).1.detect_event = 0 ∧
        (video_thread_callback H c f).1.nest_detect_event = c.nest_detect_event ∧
        nested_notifications (video_thread_callback H c f).2 = [] ∧
        (video_thread_callback H c f).1.nestDetected = zero_stats) ∧
    (initial_context sample_nested_context ∧
      (run_frames sample_host sample_nested_context
        (sample_nested_run ++ List.replicate 19 (sample_nested_frame 0 0))).detect_event = 0 ∧
      (run_frames sample_host sample_nested_context
        (sample_nested_run ++ List.replicate 19 (sample_nested_frame 0 0))).nest_detect_event
          = 1) := by
  constructor
  · intro H c f h
    unfold video_thread_callback at h ⊢
    split_ifs at h ⊢ with a1 a2 a3
    · simp [primary_notifications] at h
    · simp [primary_notifications] at h
    · have hn := nested_events_frame (primary_events (detectAndDraw H c f)).1
      have hp := primary_events_frame (detectAndDraw H c f)
      have hs := primary_events_stop_cases (detectAndDraw H c f)
      simp only [evaluate_events, primary_notifications_append, hn.2.2.2.2.2.2.2.2.2,
        List.append_nil] at h
      obtain ⟨_, s2, s3, s4, s5⟩ := hs.1 h
      have hz : ¬ 20 < (primary_events (detectAndDraw H c f)).1.detected.simo_count := by
        rw [s2]
        decide
      have hne := nested_events_of_no_streak _ hz
      simp only [evaluate_events, hne, nested_notifications_append,
        primary_events_nested_notifications, List.append_nil]
      refine ⟨?_, s4, ?_, ?_, s3⟩
      · rw [← (detectAndDraw_frame H c f).2.2.2.1]
        exact s5
      · rw [hp.2.2.2.2.2.2, (detectAndDraw_frame H c f).2.2.2.2.1]
      · simp [nested_notifications]
    · simp [primary_notifications] at h
  · exact ⟨⟨rfl, rfl, rfl, rfl, rfl, rfl, rfl⟩, by decide, by decide⟩

set_option maxRecDepth 100000 in
/-- C24 at the frame of that run that sends the primary stop. -/
theorem primary_stop_keeps_nested_event_witness :
    primary_notifications (video_thread_callback sample_host
      (run_frames sample_host sample_nested_context
        (sample_nested_run ++ List.replicate 18 (sample_nested_frame 0 0)))
      (sample_nested_frame 0 0)).2 = [disposition.stop] ∧
    (run_frames sample_host sample_nested_context
      (sample_nested_run ++ List.replicate 18 (sample_nested_frame 0 0))).nest_detect_event = 1 ∧
    (video_thread_callback sample_host
      (run_frames sample_host sample_nested_context
        (sample_nested_run ++ List.replicate 18 (sample_nested_frame 0 0)))
      (sample_nested_frame 0 0)).1.nest_detect_event =
      (run_frames sample_host sample_nested_context
        (sample_nested_run ++ List.replicate 18 (sample_nested_frame 0 0))).nest_detect_event :=
  ⟨by decide, by decide,
    (primary_stop_keeps_nested_event.1 sample_host
      (run_frames sample_host sample_nested_context
        (sample_nested_run ++ List.replicate 18 (sample_nested_frame 0 0)))
      (sample_nested_frame 0 0) (by decide)).2.2.1⟩

/-! ## Clearing an empty registry -/

theorem split_arg_clear : split_arg "clear" = ("clear", none) := by decide

theorem strcasecmp_clear : strcasecmp "clear" "clear" = false := by decide

/-- The turn of the loop for the argument `clear`. -/
theorem parse_arg_clear (L : Library) (H : Host) (st : params_state) :
    parse_arg L H st "clear" =
      (clear_overlay st.context st.png_idx).map
        fun r => { st with context := r.1, png_idx := r.2 } := by
  unfold parse_arg
  rw [split_arg_clear]
  simp only [strcasecmp_clear, Bool.not_false, if_true]

/-- On an index inside the array and a count of at most 32 the function
returns, and the count it leaves is the old one minus 1 in 32-bit
arithmetic. -/
theorem clear_overlay_count (c : cv_context) (idx : Int) (h0 : 0 ≤ idx)
    (h1 : idx < MAX_OVERLAY) (h2 : c.overlay_count ≤ MAX_OVERLAY) :
    (clear_overlay c idx).map (fun r => r.1.overlay_count) =
      some (u32 (c.overlay_count + 2 ^ 32 - 1)) := by
  unfold clear_overlay
  simp only []
  rw [if_neg (by omega)]
  rfl

theorem clear_overlay_empty (c : cv_context) (h0 : c.overlay_count = 0) :
    clear_overlay c 0 =
      some ({ c with overlay := c.overlay.set 0 zero_overlay, overlay_count := 4294967295 },
        0) := by
  unfold clear_overlay
  simp only [h0]
  rw [if_neg (by simp [MAX_OVERLAY])]
  simp [u32]

/-- C26: `clear_overlay` decrements the 32-bit overlay count whatever the
index and the count are: for every index inside the array and every count up
to 32 the new count is the old one minus 1 modulo `2 ^ 32`, also when the
index is not below the count.  On an empty registry (count 0) with index 0
the entry 0 is zeroed, the count becomes 4294967295 and 0 is returned; a
leading `clear` argument of `parse_params` makes exactly this call, since the
cursor starts at 0, and when it is the only argument the final context has
the count 4294967295. -/
theorem clear_overlay_wraps_count (L : Library) (H : Host) (c : cv_context)
    (cp ncp : Option String) (start : Nat) (argv rest : List String)
    (h0 : c.overlay_count = 0) :
    (∀ (d : cv_context) (idx : Int), 0 ≤ idx → idx < MAX_OVERLAY →
      d.overlay_count ≤ MAX_OVERLAY →
      (clear_overlay d idx).map (fun r => r.1.overlay_count) =
        some (u32 (d.overlay_count + 2 ^ 32 - 1))) ∧
    clear_overlay c 0 =
      some ({ c with overlay := c.overlay.set 0 zero_overlay, overlay_count := 4294967295 },
        0) ∧
    (argv.drop start = "clear" :: rest →
      parse_params L H c cp ncp start argv =
        (rest.foldlM (parse_arg L H)
          ⟨{ c with overlay := c.overlay.set 0 zero_overlay, overlay_count := 4294967295 },
            cp, ncp, 0, 0, none⟩).map (finish_params L 0)) ∧
    (argv.drop start = ["clear"] →
      (parse_params L H c cp ncp start argv).map (fun st => st.context.overlay_count) =
        some 4294967295) := by
  have hstep : parse_arg L H ⟨c, cp, ncp, 0, 0, none⟩ "clear" =
      some ⟨{ c with overlay := c.overlay.set 0 zero_overlay, overlay_count := 4294967295 },
        cp, ncp, 0, 0, none⟩ := by
    rw [parse_arg_clear]
    simp only []
    rw [clear_overlay_empty c h0]
    rfl
  have hrest : argv.drop start = "clear" :: rest →
      parse_params L H c cp ncp start argv =
        (rest.foldlM (parse_arg L H)
          ⟨{ c with overlay := c.overlay.set 0 zero_overlay, overlay_count := 4294967295 },
            cp, ncp, 0, 0, none⟩).map (finish_params L 0) := by
    intro ha
    unfold parse_params
    rw [ha, List.foldlM_cons, hstep, h0]
    rfl
  refine ⟨fun d idx => clear_overlay_count d idx, clear_overlay_empty c h0, hrest, ?_⟩
  intro ha
  unfold parse_params
  rw [ha, List.foldlM_cons, hstep]
  simp only [List.foldlM_nil, Option.pure_def, Option.bind_eq_bind, Option.some_bind,
    Option.map_some']
  unfold finish_params init_context
  simp only []
  split_ifs <;> (try split) <;> (try split) <;> rfl

/-- C26 at the sample context, whose registry is empty, and the arguments
`uuid start clear` read from position 2. -/
theorem clear_overlay_wraps_count_witness :
    (sample_context 1).overlay_count = 0 ∧
    (clear_overlay (sample_context 1) 0).map (fun r => r.1.overlay_count) =
      some 4294967295 ∧
    (parse_params sample_library sample_host (sample_context 1) none none 2
      ["uuid", "start", "clear"]).map (fun st => st.context.overlay_count) =
        some 4294967295 :=
  ⟨rfl,
    (congrArg (Option.map fun r => r.1.overlay_count)
      (clear_overlay_wraps_count sample_library sample_host (sample_context 1) none none 2
        ["uuid", "start", "clear"] [] rfl).2.1).trans rfl,
    (clear_overlay_wraps_count sample_library sample_host (sample_context 1) none none 2
      ["uuid", "start", "clear"] [] rfl).2.2.2 rfl⟩

end ModCv
